import Mathlib

/-!
Shallow embedding of the `colmap-reader` and `brush-dataset` crates
(COLMAP structure-from-motion reconstruction decoders and the scene
aggregate).  Rust `io::Result` values are modelled by `Res`, with Rust
panics (out-of-bounds indexing, usize underflow) modelled by a separate
`Res.panic` outcome.  Machine integers are modelled as `Int`/`Nat` with
explicit signed reinterpretation; binary `f32`/`f64` values are modelled
by their IEEE-754 bit patterns (`Nat`), with the Rust `as f32` cast
modelled by `f64BitsToF32Bits`; text-parsed floats are modelled as
exactly-represented decimals (`DecFloat`).
-/

namespace Brush

/-- The two `std::io::Error` families used by the reader: `InvalidData`
data errors (with their reason string) and IO errors (source exhausted:
`UnexpectedEof`, or transport failure). -/
inductive DecErr where
  | ioError : DecErr
  | dataError : String → DecErr
deriving DecidableEq, Repr

/-- Outcome of running a fallible Rust computation: `ok`, an `io::Error`,
or a Rust panic. -/
inductive Res (α : Type) where
  | ok : α → Res α
  | err : DecErr → Res α
  | panic : Res α
deriving DecidableEq, Repr

def Res.bind {α β : Type} : Res α → (α → Res β) → Res β
  | .ok a, f => f a
  | .err e, _ => .err e
  | .panic, _ => .panic

instance : Monad Res where
  pure := Res.ok
  bind := Res.bind

theorem Res.bind_ok {α β : Type} {x : Res α} {f : α → Res β} {b : β}
    (h : Res.bind x f = .ok b) : ∃ a, x = .ok a ∧ f a = .ok b := by
  cases x with
  | ok a => exact ⟨a, rfl, h⟩
  | err e => simp [Res.bind] at h
  | panic => simp [Res.bind] at h

/-- `std::collections::HashMap` modelled as a lookup function. -/
def HMap (κ α : Type) : Type := κ → Option α

def HMap.empty {κ α : Type} : HMap κ α := fun _ => none

/-- `HashMap::insert`: replaces any existing entry with the same key. -/
def HMap.insert {κ α : Type} [DecidableEq κ] (m : HMap κ α) (k : κ) (a : α) :
    HMap κ α :=
  fun k' => if k' = k then some a else m k'

/-- Look up key `k` in the map of a successful decode (`none` when the
decode did not succeed).  Used to state concrete evaluations. -/
def lookupOk {κ α : Type} (r : Res (HMap κ α)) (k : κ) : Option (Option α) :=
  match r with
  | .ok m => some (m k)
  | _ => none

/-- The outcome of a decode with the value erased (so that outcomes of
map-valued decodes can be stated decidably). -/
def statusOf {α : Type} : Res α → Res Unit
  | .ok _ => .ok ()
  | .err e => .err e
  | .panic => .panic

/-! ## Camera model registry (`CameraModel`) -/

inductive CameraModel where
  | SimplePinhole
  | Pinhole
  | SimpleRadial
  | Radial
  | OpenCV
  | OpenCvFishEye
  | FullOpenCV
  | Fov
  | SimpleRadialFisheye
  | RadialFisheye
  | ThinPrismFisheye
deriving DecidableEq, Repr

namespace CameraModel

/-- `CameraModel::from_id` (the source `match` on the integer id written
as an if-chain). -/
def from_id (id : Int) : Option CameraModel :=
  if id = 0 then some .SimplePinhole
  else if id = 1 then some .Pinhole
  else if id = 2 then some .SimpleRadial
  else if id = 3 then some .Radial
  else if id = 4 then some .OpenCV
  else if id = 5 then some .OpenCvFishEye
  else if id = 6 then some .FullOpenCV
  else if id = 7 then some .Fov
  else if id = 8 then some .SimpleRadialFisheye
  else if id = 9 then some .RadialFisheye
  else if id = 10 then some .ThinPrismFisheye
  else none

/-- `CameraModel::from_name`. -/
def from_name (name : String) : Option CameraModel :=
  if name = "SIMPLE_PINHOLE" then some .SimplePinhole
  else if name = "PINHOLE" then some .Pinhole
  else if name = "SIMPLE_RADIAL" then some .SimpleRadial
  else if name = "RADIAL" then some .Radial
  else if name = "OPENCV" then some .OpenCV
  else if name = "OPENCV_FISHEYE" then some .OpenCvFishEye
  else if name = "FULL_OPENCV" then some .FullOpenCV
  else if name = "FOV" then some .Fov
  else if name = "SIMPLE_RADIAL_FISHEYE" then some .SimpleRadialFisheye
  else if name = "RADIAL_FISHEYE" then some .RadialFisheye
  else if name = "THIN_PRISM_FISHEYE" then some .ThinPrismFisheye
  else none

/-- `CameraModel::num_params`. -/
def num_params : CameraModel → Nat
  | .SimplePinhole => 3
  | .Pinhole => 4
  | .SimpleRadial => 4
  | .Radial => 5
  | .OpenCV => 8
  | .OpenCvFishEye => 8
  | .FullOpenCV => 12
  | .Fov => 5
  | .SimpleRadialFisheye => 4
  | .RadialFisheye => 5
  | .ThinPrismFisheye => 12

end CameraModel

/-! ## String helpers (`str::split_whitespace`, `str::starts_with`) -/

/-- Tokens of a character list split on whitespace (empties skipped),
modelling `str::split_whitespace`.  `cur` is the current token being
built, in reverse. -/
def wsTokensAcc (cur : List Char) : List Char → List (List Char)
  | [] => if cur = [] then [] else [cur.reverse]
  | c :: cs =>
    if c.isWhitespace then
      if cur = [] then wsTokensAcc [] cs else cur.reverse :: wsTokensAcc [] cs
    else wsTokensAcc (c :: cur) cs

def splitWS (s : String) : List String := (wsTokensAcc [] s.data).map String.mk

/-- `line.starts_with('#')`. -/
def startsHash (s : String) : Bool :=
  match s.data with
  | [] => false
  | c :: _ => c = '#'

/-! ## Numeric token parsing (`str::parse` mapped through the source's
`parse` helper, which turns any parse failure into an `InvalidData`
error with reason "Parse error").  Text-parsed floats are modelled as
exactly-represented decimals (`DecFloat`). -/

def digitsToNat (ds : List Char) : Nat :=
  ds.foldl (fun a c => a * 10 + (c.toNat - 48)) 0

def parseNat? (cs : List Char) : Option Nat :=
  if cs = [] then none
  else if cs.all Char.isDigit then some (digitsToNat cs) else none

def parseIntCore? (cs : List Char) : Option Int :=
  match cs with
  | '+' :: rest => (parseNat? rest).map Int.ofNat
  | '-' :: rest => (parseNat? rest).map (fun n => -(n : Int))
  | rest => (parseNat? rest).map Int.ofNat

def parseUnsignedCore? (cs : List Char) : Option Nat :=
  match cs with
  | '+' :: rest => parseNat? rest
  | rest => parseNat? rest

/-- `parse::<i32>` through the `parse` helper. -/
def parseI32R (s : String) : Res Int :=
  match parseIntCore? s.data with
  | some n => if -(2^31) ≤ n ∧ n < 2^31 then .ok n else .err (.dataError "Parse error")
  | none => .err (.dataError "Parse error")

/-- `parse::<i64>` through the `parse` helper. -/
def parseI64R (s : String) : Res Int :=
  match parseIntCore? s.data with
  | some n => if -(2^63) ≤ n ∧ n < 2^63 then .ok n else .err (.dataError "Parse error")
  | none => .err (.dataError "Parse error")

/-- `parse::<u64>` through the `parse` helper. -/
def parseU64R (s : String) : Res Nat :=
  match parseUnsignedCore? s.data with
  | some n => if n < 2^64 then .ok n else .err (.dataError "Parse error")
  | none => .err (.dataError "Parse error")

/-- `parse::<u8>` through the `parse` helper. -/
def parseU8R (s : String) : Res Nat :=
  match parseUnsignedCore? s.data with
  | some n => if n < 2^8 then .ok n else .err (.dataError "Parse error")
  | none => .err (.dataError "Parse error")

/-- An exactly-represented finite decimal: the value
`num * 10 ^ exp10`.  Text float tokens are modelled by this type — the
reader only stores parsed float values and never computes with them, so
the rounding to binary floating point is not modelled. -/
structure DecFloat where
  num : Int
  exp10 : Int
deriving DecidableEq, Repr

/-- Finite decimal float literal (optional sign, optional fraction,
optional decimal exponent), modelling `parse::<f32>` / `parse::<f64>`
on the finite decimal forms. -/
def parseFloatCore? (cs : List Char) : Option DecFloat :=
  let (sgn, body) : Int × List Char :=
    match cs with
    | '+' :: rest => (1, rest)
    | '-' :: rest => (-1, rest)
    | rest => (1, rest)
  let mant := body.takeWhile (fun c => c ≠ 'e' ∧ c ≠ 'E')
  let expPart := body.dropWhile (fun c => c ≠ 'e' ∧ c ≠ 'E')
  let exp? : Option Int :=
    match expPart with
    | [] => some 0
    | _ :: ex => parseIntCore? ex
  let ip := mant.takeWhile (fun c => c ≠ '.')
  let rest := mant.dropWhile (fun c => c ≠ '.')
  let fp? : Option (List Char) :=
    match rest with
    | [] => some []
    | _ :: fp => if fp.all Char.isDigit then some fp else none
  match exp?, fp? with
  | some e, some fp =>
    if ip.all Char.isDigit ∧ (ip ++ fp) ≠ [] then
      some ⟨sgn * (digitsToNat (ip ++ fp) : Int), e - fp.length⟩
    else none
  | _, _ => none

/-- Text float field through the `parse` helper. -/
def parseFloatR (s : String) : Res DecFloat :=
  match parseFloatCore? s.data with
  | some q => .ok q
  | none => .err (.dataError "Parse error")

/-! ## UTF-8 (`std::str::from_utf8`) -/

/-- Strict UTF-8 decoding (rejecting overlong forms, surrogates and
out-of-range code points), modelling `std::str::from_utf8`.  The fuel
argument is instantiated with the byte-list length. -/
def utf8DecodeAux : Nat → List Nat → Option (List Char)
  | _, [] => some []
  | 0, _ :: _ => none
  | fuel + 1, b :: rest =>
    if b < 0x80 then
      (utf8DecodeAux fuel rest).map (fun cs => Char.ofNat b :: cs)
    else if 0xC2 ≤ b ∧ b ≤ 0xDF then
      match rest with
      | b1 :: r =>
        if 0x80 ≤ b1 ∧ b1 ≤ 0xBF then
          (utf8DecodeAux fuel r).map
            (fun cs => Char.ofNat ((b - 0xC0) * 64 + (b1 - 0x80)) :: cs)
        else none
      | [] => none
    else if 0xE0 ≤ b ∧ b ≤ 0xEF then
      match rest with
      | b1 :: b2 :: r =>
        if (0x80 ≤ b1 ∧ b1 ≤ 0xBF) ∧ (0x80 ≤ b2 ∧ b2 ≤ 0xBF) ∧
            (b ≠ 0xE0 ∨ 0xA0 ≤ b1) ∧ (b ≠ 0xED ∨ b1 ≤ 0x9F) then
          (utf8DecodeAux fuel r).map
            (fun cs =>
              Char.ofNat ((b - 0xE0) * 4096 + (b1 - 0x80) * 64 + (b2 - 0x80)) :: cs)
        else none
      | _ => none
    else if 0xF0 ≤ b ∧ b ≤ 0xF4 then
      match rest with
      | b1 :: b2 :: b3 :: r =>
        if (0x80 ≤ b1 ∧ b1 ≤ 0xBF) ∧ (0x80 ≤ b2 ∧ b2 ≤ 0xBF) ∧
            (0x80 ≤ b3 ∧ b3 ≤ 0xBF) ∧ (b ≠ 0xF0 ∨ 0x90 ≤ b1) ∧
            (b ≠ 0xF4 ∨ b1 ≤ 0x8F) then
          (utf8DecodeAux fuel r).map
            (fun cs =>
              Char.ofNat ((b - 0xF0) * 262144 + (b1 - 0x80) * 4096 +
                (b2 - 0x80) * 64 + (b3 - 0x80)) :: cs)
        else none
      | _ => none
    else none

def utf8Decode? (bs : List Nat) : Option String :=
  (utf8DecodeAux bs.length bs).map String.mk

/-! ## IEEE-754 bit-pattern truncation (`f64 as f32`) -/

/-- Round `sig / 2^d` to the nearest integer, ties to even. -/
def roundNE (sig d : Nat) : Nat :=
  if d = 0 then sig
  else
    let q := sig / 2 ^ d
    let r := sig % 2 ^ d
    let half := 2 ^ (d - 1)
    q + (if half < r ∨ (r = half ∧ q % 2 = 1) then 1 else 0)

/-- The Rust `as f32` cast on an `f64`, on IEEE-754 bit patterns:
round-to-nearest-even, overflow to infinity, f64 subnormals underflow to
(signed) zero, NaN to the canonical quiet NaN. -/
def f64BitsToF32Bits (b : Nat) : Nat :=
  let s : Nat := b / 2 ^ 63 % 2
  let e : Nat := b / 2 ^ 52 % 2 ^ 11
  let m : Nat := b % 2 ^ 52
  if e = 2047 then
    if m = 0 then s * 2 ^ 31 + 0x7F800000 else s * 2 ^ 31 + 0x7FC00000
  else if e = 0 then s * 2 ^ 31
  else
    let sig := 2 ^ 52 + m
    let E : Int := (e : Int) - 1023
    if 128 ≤ E then s * 2 ^ 31 + 0x7F800000
    else if -126 ≤ E then
      let n := roundNE sig 29
      if n = 2 ^ 24 then
        if E = 127 then s * 2 ^ 31 + 0x7F800000
        else s * 2 ^ 31 + (E + 1 + 127).toNat * 2 ^ 23
      else s * 2 ^ 31 + (E + 127).toNat * 2 ^ 23 + (n - 2 ^ 23)
    else s * 2 ^ 31 + roundNE sig (926 - e)

/-! ## Byte-source primitives (tokio `AsyncReadExt` / `AsyncBufReadExt`).
A binary source is a byte list; each read returns the value and the
remaining bytes. -/

abbrev Bytes := List Nat

def RM (α : Type) : Type := Bytes → Res (α × Bytes)

instance : Monad RM where
  pure a := fun s => .ok (a, s)
  bind x f := fun s =>
    match x s with
    | .ok (a, s') => f a s'
    | .err e => .err e
    | .panic => .panic

/-- Read exactly `n` bytes; `UnexpectedEof` (an IO error) if the source
is exhausted first. -/
def rdBytes : Nat → RM Bytes
  | 0 => fun s => .ok ([], s)
  | n + 1 => fun s =>
    match s with
    | [] => .err .ioError
    | b :: rest =>
      match rdBytes n rest with
      | .ok (bs, r) => .ok (b :: bs, r)
      | .err e => .err e
      | .panic => .panic

/-- Little-endian value of a byte list (first byte least significant). -/
def leNat (bs : Bytes) : Nat := bs.foldr (fun b acc => b + 256 * acc) 0

/-- Big-endian value of a byte list (first byte most significant). -/
def beNat (bs : Bytes) : Nat := bs.foldl (fun acc b => acc * 256 + b) 0

/-- Reinterpret a `w`-bit unsigned value as two's-complement signed. -/
def toSigned (w : Nat) (n : Nat) : Int :=
  if n < 2 ^ (w - 1) then (n : Int) else (n : Int) - 2 ^ w

def read_u64_le : RM Nat := do
  let bs ← rdBytes 8
  pure (leNat bs)

def read_i32_le : RM Int := do
  let bs ← rdBytes 4
  pure (toSigned 32 (leNat bs))

/-- tokio's `read_i64()` reads **big-endian** — this is the primitive
the source calls for `point3d_id`s and `Point3D` ids. -/
def read_i64_be : RM Int := do
  let bs ← rdBytes 8
  pure (toSigned 64 (beNat bs))

/-- `read_f64_le`, kept as the raw 64-bit pattern. -/
def read_f64_le_bits : RM Nat := do
  let bs ← rdBytes 8
  pure (leNat bs)

/-- `read_f64_le().await? as f32`: a little-endian f64 truncated to an
f32 bit pattern. -/
def read_f32_trunc : RM Nat := do
  let b ← read_f64_le_bits
  pure (f64BitsToF32Bits b)

def read_u8 : RM Nat := do
  let bs ← rdBytes 1
  pure (leNat bs)

/-- tokio's `read_until(b'\0', ..)`: bytes up to and including the first
NUL; at EOF without a NUL it succeeds with whatever bytes remained. -/
def read_until0 : RM Bytes
  | [] => .ok ([], [])
  | b :: rest =>
    if b = 0 then .ok ([0], rest)
    else
      match read_until0 rest with
      | .ok (bs, r) => .ok (b :: bs, r)
      | .err e => .err e
      | .panic => .panic

/-! ## Entity data model (`Camera`, `Image`, `Point3D`).  The scalar
type is a parameter: text decoding instantiates it with `ℚ` (floats as
exact rationals), binary decoding with `Nat` (IEEE bit patterns, f32
after the `as f32` truncation). -/

structure Quat (F : Type) where
  x : F
  y : F
  z : F
  w : F
deriving DecidableEq, Repr

/-- `glam::quat(x, y, z, w)` (`w` is the scalar part). -/
def glam_quat {F : Type} (x y z w : F) : Quat F := ⟨x, y, z, w⟩

structure V2 (F : Type) where
  x : F
  y : F
deriving DecidableEq, Repr

def glam_vec2 {F : Type} (x y : F) : V2 F := ⟨x, y⟩

structure V3 (F : Type) where
  x : F
  y : F
  z : F
deriving DecidableEq, Repr

def glam_vec3 {F : Type} (x y z : F) : V3 F := ⟨x, y, z⟩

/-- `Camera` (`P` is the parameter scalar type: `ℚ` for text, raw f64
bit patterns for binary). -/
structure Camera (P : Type) where
  id : Int
  model : CameraModel
  width : Nat
  height : Nat
  params : List P
deriving DecidableEq, Repr

/-- `Image` (`F` is the f32 scalar type). -/
structure Image (F : Type) where
  tvec : V3 F
  quat : Quat F
  camera_id : Int
  name : String
  xys : List (V2 F)
  point3d_ids : List Int
deriving DecidableEq, Repr

/-- `Point3D` (`F` the f32 scalar type, `E` the f64 type of `error`). -/
structure Point3D (F E : Type) where
  xyz : V3 F
  rgb : Nat × Nat × Nat
  error : E
  image_ids : List Int
  point2d_idxs : List Int
deriving DecidableEq, Repr

/-! ## Text decoders.  A text source is modelled as its list of lines
(the `read_line` splitting pre-applied: newline terminators stripped; a
line produced by `read_line` is never the empty string, so the
`!line.is_empty()` test in `read_images_text` is identically true and
is dropped). -/

/-- `Rust elems[i]`: panics when out of bounds. -/
def tokGet (es : List String) (i : Nat) : Res String :=
  match es.get? i with
  | some t => .ok t
  | none => .panic

/-- `parts[4..].iter().map(parse).collect::<Result<_,_>>()`. -/
def parseAllFloats : List String → Res (List DecFloat)
  | [] => .ok []
  | p :: ps => do
    let v ← parseFloatR p
    let vs ← parseAllFloats ps
    pure (v :: vs)

/-- One camera record line of `read_cameras_text` (source lines
172–207). -/
def parseCameraLine (l : String) : Res (Int × Camera DecFloat) :=
  let parts := splitWS l
  if parts.length < 4 then .err (.dataError "Invalid camera data")
  else do
    let id ← parseI32R (parts.getD 0 "")
    let model ← (match CameraModel.from_name (parts.getD 1 "") with
      | some m => pure m
      | none => .err (.dataError "Invalid camera model") : Res CameraModel)
    let width ← parseU64R (parts.getD 2 "")
    let height ← parseU64R (parts.getD 3 "")
    let params ← parseAllFloats (parts.drop 4)
    if params.length ≠ model.num_params then
      .err (.dataError "Invalid number of camera parameters")
    else .ok (id, ⟨id, model, width, height, params⟩)

def read_cameras_text_loop :
    List String → HMap Int (Camera DecFloat) → Res (HMap Int (Camera DecFloat))
  | [], m => .ok m
  | l :: rest, m =>
    if startsHash l then read_cameras_text_loop rest m
    else
      Res.bind (parseCameraLine l)
        (fun ic => read_cameras_text_loop rest (m.insert ic.1 ic.2))

def read_cameras_text (lines : List String) : Res (HMap Int (Camera DecFloat)) :=
  read_cameras_text_loop lines HMap.empty

/-- `slice::chunks(3)`: full chunks, then the (possibly shorter)
remainder. -/
def chunks3 {α : Type} : List α → List (List α)
  | [] => []
  | [a] => [[a]]
  | [a, b] => [[a, b]]
  | a :: b :: c :: rest => [a, b, c] :: chunks3 rest

/-- `slice::chunks(2)`. -/
def chunks2 {α : Type} : List α → List (List α)
  | [] => []
  | [a] => [[a]]
  | a :: b :: rest => [a, b] :: chunks2 rest

/-- The observation loop of `read_images_text` (source lines 284–287):
`for chunk in elems.chunks(3)` with unguarded `chunk[1]` / `chunk[2]`
indexing, which panics on a short final chunk (after the in-bounds
tokens of that chunk have been parsed). -/
def parseObsChunks : List (List String) → Res (List (V2 DecFloat) × List Int)
  | [] => .ok ([], [])
  | c :: cs =>
    match c with
    | [] => .panic
    | [a] => Res.bind (parseFloatR a) (fun _ => .panic)
    | [a, b] => do
      let _x ← parseFloatR a
      let _y ← parseFloatR b
      (.panic : Res (List (V2 DecFloat) × List Int))
    | a :: b :: c3 :: _ => do
      let x ← parseFloatR a
      let y ← parseFloatR b
      let pid ← parseI64R c3
      let (xys, pids) ← parseObsChunks cs
      pure (glam_vec2 x y :: xys, pid :: pids)

/-- One image record of `read_images_text` (source lines 264–298):
`es` the tokens of the first line, `obs` the tokens of the second. -/
def parseImageTokens (es obs : List String) : Res (Int × Image DecFloat) := do
  let t0 ← tokGet es 0
  let id ← parseI32R t0
  let t1 ← tokGet es 1
  let w ← parseFloatR t1
  let t2 ← tokGet es 2
  let x ← parseFloatR t2
  let t3 ← tokGet es 3
  let y ← parseFloatR t3
  let t4 ← tokGet es 4
  let z ← parseFloatR t4
  let quat := glam_quat x y z w
  let t5 ← tokGet es 5
  let v1 ← parseFloatR t5
  let t6 ← tokGet es 6
  let v2 ← parseFloatR t6
  let t7 ← tokGet es 7
  let v3 ← parseFloatR t7
  let tvec := glam_vec3 v1 v2 v3
  let t8 ← tokGet es 8
  let camera_id ← parseI32R t8
  let name ← tokGet es 9
  let (xys, pids) ← parseObsChunks (chunks3 obs)
  pure (id, ⟨tvec, quat, camera_id, name, xys, pids⟩)

def read_images_text_loop :
    List String → HMap Int (Image DecFloat) → Res (HMap Int (Image DecFloat))
  | [], m => .ok m
  | [l], m =>
    if startsHash l then .ok m
    else
      Res.bind (parseImageTokens (splitWS l) (splitWS ""))
        (fun p => read_images_text_loop [] (m.insert p.1 p.2))
  | l :: l2 :: rest2, m =>
    if startsHash l then read_images_text_loop (l2 :: rest2) m
    else
      Res.bind (parseImageTokens (splitWS l) (splitWS l2))
        (fun p => read_images_text_loop rest2 (m.insert p.1 p.2))

def read_images_text (lines : List String) : Res (HMap Int (Image DecFloat)) :=
  read_images_text_loop lines HMap.empty

/-- The track loop of `read_points3d_text` (source lines 397–406): the
short-chunk guard comes before any parsing of the chunk. -/
def parseTrackChunks : List (List String) → Res (List Int × List Int)
  | [] => .ok ([], [])
  | c :: cs =>
    match c with
    | [a, b] => do
      let i ← parseI32R a
      let j ← parseI32R b
      let (iids, idxs) ← parseTrackChunks cs
      pure (i :: iids, j :: idxs)
    | _ => .err (.dataError "Invalid point3D track data")

/-- One point record line of `read_points3d_text` (source lines
377–417). -/
def parsePointLine (l : String) : Res (Int × Point3D DecFloat DecFloat) :=
  let parts := splitWS l
  if parts.length < 8 then .err (.dataError "Invalid point3D data")
  else do
    let id ← parseI64R (parts.getD 0 "")
    let x ← parseFloatR (parts.getD 1 "")
    let y ← parseFloatR (parts.getD 2 "")
    let z ← parseFloatR (parts.getD 3 "")
    let r ← parseU8R (parts.getD 4 "")
    let g ← parseU8R (parts.getD 5 "")
    let b ← parseU8R (parts.getD 6 "")
    let error ← parseFloatR (parts.getD 7 "")
    let (iids, idxs) ← parseTrackChunks (chunks2 (parts.drop 8))
    .ok (id, ⟨glam_vec3 x y z, (r, g, b), error, iids, idxs⟩)

def read_points3d_text_loop :
    List String → HMap Int (Point3D DecFloat DecFloat) →
      Res (HMap Int (Point3D DecFloat DecFloat))
  | [], m => .ok m
  | l :: rest, m =>
    if startsHash l then read_points3d_text_loop rest m
    else
      Res.bind (parsePointLine l)
        (fun ip => read_points3d_text_loop rest (m.insert ip.1 ip.2))

def read_points3d_text (lines : List String) :
    Res (HMap Int (Point3D DecFloat DecFloat)) :=
  read_points3d_text_loop lines HMap.empty

/-! ## Binary decoders. -/

def RM.throw {α : Type} (e : DecErr) : RM α := fun _ => .err e

def RM.panicked {α : Type} : RM α := fun _ => .panic

/-- `model.num_params()` × `read_f64_le` (raw bit patterns: binary
camera params are stored as `f64`, untruncated). -/
def readNF64 : Nat → RM (List Nat)
  | 0 => pure []
  | n + 1 => do
    let v ← read_f64_le_bits
    let vs ← readNF64 n
    pure (v :: vs)

/-- One record of `read_cameras_binary` (source lines 221–244). -/
def readCameraRecB : RM (Int × Camera Nat) := do
  let camera_id ← read_i32_le
  let model_id ← read_i32_le
  let width ← read_u64_le
  let height ← read_u64_le
  let model ← (match CameraModel.from_id model_id with
    | some m => pure m
    | none => RM.throw (.dataError "Invalid camera model") : RM CameraModel)
  let params ← readNF64 model.num_params
  pure (camera_id, ⟨camera_id, model, width, height, params⟩)

def readCamerasBinLoop : Nat → HMap Int (Camera Nat) → RM (HMap Int (Camera Nat))
  | 0, m => pure m
  | n + 1, m => do
    let ic ← readCameraRecB
    readCamerasBinLoop n (m.insert ic.1 ic.2)

def read_cameras_binary (s : Bytes) : Res (HMap Int (Camera Nat)) :=
  match (do
      let n ← read_u64_le
      readCamerasBinLoop n HMap.empty : RM (HMap Int (Camera Nat))) s with
  | .ok (m, _) => .ok m
  | .err e => .err e
  | .panic => .panic

/-- The observation loop of `read_images_binary` (source lines 340–346).
The per-observation `point3d_id` is read with tokio's `read_i64()`,
which is big-endian. -/
def readObsB : Nat → RM (List (V2 Nat) × List Int)
  | 0 => pure ([], [])
  | n + 1 => do
    let x ← read_f32_trunc
    let y ← read_f32_trunc
    let pid ← read_i64_be
    let (xys, pids) ← readObsB n
    pure (glam_vec2 x y :: xys, pid :: pids)

/-- One record of `read_images_binary` (source lines 313–358).  The
name is read with `read_until(b'\0', ..)`; the source then slices
`&name_bytes[..name_bytes.len() - 1]`, which panics when `read_until`
returned zero bytes (EOF right at the name field). -/
def readImageRecB : RM (Int × Image Nat) := do
  let image_id ← read_i32_le
  let w ← read_f32_trunc
  let x ← read_f32_trunc
  let y ← read_f32_trunc
  let z ← read_f32_trunc
  let quat := glam_quat x y z w
  let t1 ← read_f32_trunc
  let t2 ← read_f32_trunc
  let t3 ← read_f32_trunc
  let tvec := glam_vec3 t1 t2 t3
  let camera_id ← read_i32_le
  let name_bytes ← read_until0
  let name ← (match name_bytes with
    | [] => RM.panicked
    | _ => match utf8Decode? name_bytes.dropLast with
      | some nm => pure nm
      | none => RM.throw (.dataError "invalid utf-8") : RM String)
  let num ← read_u64_le
  let (xys, pids) ← readObsB num
  pure (image_id, ⟨tvec, quat, camera_id, name, xys, pids⟩)

def readImagesBinLoop : Nat → HMap Int (Image Nat) → RM (HMap Int (Image Nat))
  | 0, m => pure m
  | n + 1, m => do
    let ii ← readImageRecB
    readImagesBinLoop n (m.insert ii.1 ii.2)

def read_images_binary (s : Bytes) : Res (HMap Int (Image Nat)) :=
  match (do
      let n ← read_u64_le
      readImagesBinLoop n HMap.empty : RM (HMap Int (Image Nat))) s with
  | .ok (m, _) => .ok m
  | .err e => .err e
  | .panic => .panic

/-- The track loop of `read_points3d_binary` (source lines 448–451). -/
def readTrackB : Nat → RM (List Int × List Int)
  | 0 => pure ([], [])
  | n + 1 => do
    let i ← read_i32_le
    let j ← read_i32_le
    let (iids, idxs) ← readTrackB n
    pure (i :: iids, j :: idxs)

/-- One record of `read_points3d_binary` (source lines 431–462).  The
leading id is read with tokio's `read_i64()`, which is big-endian. -/
def readPointRecB : RM (Int × Point3D Nat Nat) := do
  let point3d_id ← read_i64_be
  let x ← read_f32_trunc
  let y ← read_f32_trunc
  let z ← read_f32_trunc
  let r ← read_u8
  let g ← read_u8
  let b ← read_u8
  let error ← read_f64_le_bits
  let tl ← read_u64_le
  let (iids, idxs) ← readTrackB tl
  pure (point3d_id, ⟨glam_vec3 x y z, (r, g, b), error, iids, idxs⟩)

def readPointsBinLoop :
    Nat → HMap Int (Point3D Nat Nat) → RM (HMap Int (Point3D Nat Nat))
  | 0, m => pure m
  | n + 1, m => do
    let ip ← readPointRecB
    readPointsBinLoop n (m.insert ip.1 ip.2)

def read_points3d_binary (s : Bytes) : Res (HMap Int (Point3D Nat Nat)) :=
  match (do
      let n ← read_u64_le
      readPointsBinLoop n HMap.empty : RM (HMap Int (Point3D Nat Nat))) s with
  | .ok (m, _) => .ok m
  | .err e => .err e
  | .panic => .panic

/-! ## Scene aggregate (`brush-dataset/src/scene.rs`).  The `f32`
arithmetic of `cameras_extent` is modelled over `ℝ`; with real
arithmetic there is no NaN, so the `partial_cmp(..).unwrap()` inside
`max_by` cannot panic and `max_by` is the list maximum. -/

noncomputable def V3.add (a b : V3 ℝ) : V3 ℝ := ⟨a.x + b.x, a.y + b.y, a.z + b.z⟩

noncomputable def V3.sub (a b : V3 ℝ) : V3 ℝ := ⟨a.x - b.x, a.y - b.y, a.z - b.z⟩

noncomputable def V3.zero : V3 ℝ := ⟨0, 0, 0⟩

noncomputable def V3.divs (a : V3 ℝ) (s : ℝ) : V3 ℝ := ⟨a.x / s, a.y / s, a.z / s⟩

/-- `glam::Vec3::length`. -/
noncomputable def V3.length (v : V3 ℝ) : ℝ :=
  Real.sqrt (v.x * v.x + v.y * v.y + v.z * v.z)

/-- Modelled from the spec: `brush_render::camera::Camera` lives in an
external crate not present in the sources; `cameras_extent` consumes
only its `position`, which is all that is modelled. -/
structure RenderCamera where
  position : V3 ℝ

/-- `SceneView`.  The `image: DynamicImage` field is external pixel
data (out of scope) and is not modelled. -/
structure SceneView where
  camera : RenderCamera

structure Scene where
  views : List SceneView
  background_color : V3 ℝ

def Scene.new (views : List SceneView) (background_color : V3 ℝ) : Scene :=
  ⟨views, background_color⟩

/-- `Scene::cameras_extent` (source lines 26–46): fold the camera
positions, divide by the count, take `1.1 ×` the maximum distance to
that center; `.max_by(..).unwrap()` panics when the view list is
empty. -/
noncomputable def Scene.cameras_extent (s : Scene) : Res ℝ :=
  let camera_centers := s.views.map (fun x => x.camera.position)
  let scene_center : V3 ℝ :=
    (camera_centers.foldl V3.add V3.zero).divs (camera_centers.length : ℝ)
  match camera_centers.map (fun x => (scene_center.sub x).length) with
  | [] => .panic
  | d :: ds => .ok (ds.foldl max d * 1.1)

def Scene.get_view (s : Scene) (index : Nat) : Option SceneView :=
  s.views.get? index

end Brush

namespace Brush

/-! ## Claim theorems -/

/-- C1: the camera-model registry is total and stable on the declared
domain: `from_id` maps each id in `0..=10` to the listed variant and
every other integer id to `none`, and `num_params` assigns the eleven
variants the arities 3, 4, 4, 5, 8, 8, 12, 5, 4, 5, 12 respectively. -/
theorem c1_camera_model_registry :
    (CameraModel.from_id 0 = some .SimplePinhole ∧
     CameraModel.from_id 1 = some .Pinhole ∧
     CameraModel.from_id 2 = some .SimpleRadial ∧
     CameraModel.from_id 3 = some .Radial ∧
     CameraModel.from_id 4 = some .OpenCV ∧
     CameraModel.from_id 5 = some .OpenCvFishEye ∧
     CameraModel.from_id 6 = some .FullOpenCV ∧
     CameraModel.from_id 7 = some .Fov ∧
     CameraModel.from_id 8 = some .SimpleRadialFisheye ∧
     CameraModel.from_id 9 = some .RadialFisheye ∧
     CameraModel.from_id 10 = some .ThinPrismFisheye) ∧
    (∀ id : Int, id < 0 ∨ 10 < id → CameraModel.from_id id = none) ∧
    (CameraModel.num_params .SimplePinhole = 3 ∧
     CameraModel.num_params .Pinhole = 4 ∧
     CameraModel.num_params .SimpleRadial = 4 ∧
     CameraModel.num_params .Radial = 5 ∧
     CameraModel.num_params .OpenCV = 8 ∧
     CameraModel.num_params .OpenCvFishEye = 8 ∧
     CameraModel.num_params .FullOpenCV = 12 ∧
     CameraModel.num_params .Fov = 5 ∧
     CameraModel.num_params .SimpleRadialFisheye = 4 ∧
     CameraModel.num_params .RadialFisheye = 5 ∧
     CameraModel.num_params .ThinPrismFisheye = 12) := by
  refine ⟨by decide, ?_, by decide⟩
  intro id h
  have h0 : id ≠ 0 := by omega
  have h1 : id ≠ 1 := by omega
  have h2 : id ≠ 2 := by omega
  have h3 : id ≠ 3 := by omega
  have h4 : id ≠ 4 := by omega
  have h5 : id ≠ 5 := by omega
  have h6 : id ≠ 6 := by omega
  have h7 : id ≠ 7 := by omega
  have h8 : id ≠ 8 := by omega
  have h9 : id ≠ 9 := by omega
  have h10 : id ≠ 10 := by omega
  simp [CameraModel.from_id, h0, h1, h2, h3, h4, h5, h6, h7, h8, h9, h10]

/-- C1 witness: out-of-range ids are rejected, at `11` and `-3`. -/
theorem c1_camera_model_registry_witness :
    CameraModel.from_id 11 = none ∧ CameraModel.from_id (-3) = none :=
  ⟨c1_camera_model_registry.2.1 11 (Or.inr (by decide)),
   c1_camera_model_registry.2.1 (-3) (Or.inl (by decide))⟩

/-- C2 fails on the code: the binary decoders read the `Point3D` id and
the per-observation `point3d_id` with tokio's big-endian `read_i64()`,
not little-endian.  A one-point binary section whose id field is the
little-endian encoding of `1` (bytes `01 00 .. 00`) decodes to a map
keyed by `2^56 = 72057594037927936`, with no entry at key `1`; likewise
a binary image whose single observation carries those id bytes stores
`point3d_id = 2^56` rather than `1`. -/
theorem c2_point_ids_read_big_endian :
    lookupOk (read_points3d_binary
      ([1,0,0,0,0,0,0,0] ++ [1,0,0,0,0,0,0,0] ++ List.replicate 24 0 ++
        [9,9,9] ++ List.replicate 8 0 ++ List.replicate 8 0))
      72057594037927936 = some (some ⟨⟨0,0,0⟩, (9,9,9), 0, [], []⟩) ∧
    lookupOk (read_points3d_binary
      ([1,0,0,0,0,0,0,0] ++ [1,0,0,0,0,0,0,0] ++ List.replicate 24 0 ++
        [9,9,9] ++ List.replicate 8 0 ++ List.replicate 8 0))
      1 = some none ∧
    lookupOk (read_images_binary
      ([1,0,0,0,0,0,0,0] ++ [3,0,0,0] ++ List.replicate 56 0 ++ [2,0,0,0] ++
        [104,105,0] ++ [1,0,0,0,0,0,0,0] ++ List.replicate 16 0 ++
        [1,0,0,0,0,0,0,0])) 3 =
      some (some ⟨⟨0,0,0⟩, ⟨0,0,0,0⟩, 2, "hi", [⟨0,0⟩],
        [72057594037927936]⟩) := by
  refine ⟨by decide, by decide, by decide⟩

/-- C3 fails on the code: a text image record whose second line has 4
tokens makes `read_images_text` panic (the unguarded `chunk[1]` index
on the length-1 final chunk), instead of returning a `DataError`. -/
theorem c3_images_text_short_chunk_panics :
    statusOf (read_images_text ["1 1 0 0 0 0 0 0 1 img", "1 2 3 4"]) =
      .panic := by decide

/-- C4 fails on the code: a binary image input exhausted exactly at the
start of the null-terminated name (here: count 1, then `image_id`,
7 × `f64`, `camera_id`, and nothing more) makes `read_images_binary`
panic — `read_until` returns zero bytes at EOF and the source slices
`&name_bytes[..name_bytes.len() - 1]` — instead of returning an
IOError. -/
theorem c4_images_binary_name_eof_panics :
    statusOf (read_images_binary
      ([1,0,0,0,0,0,0,0] ++ [1,0,0,0] ++ List.replicate 56 0 ++ [2,0,0,0])) =
      .panic := by decide

end Brush

namespace Brush

/-! ## Error-shape machinery: inside the text decoders every failure is
an `InvalidData` error (there is no panic path in the camera/point text
record parsers, and parse failures all carry `ErrorKind::InvalidData`). -/

/-- `r` is `ok` or an `InvalidData` error. -/
def okOrData {α : Type} : Res α → Prop
  | .ok _ => True
  | .err (.dataError _) => True
  | _ => False

/-- `r` is an `InvalidData` error. -/
def isDataErr {α : Type} (r : Res α) : Prop :=
  ∃ msg, r = .err (.dataError msg)

theorem okOrData_elim {α : Type} {x : Res α} (h : okOrData x) :
    (∃ a, x = .ok a) ∨ isDataErr x := by
  cases x with
  | ok a => exact Or.inl ⟨a, rfl⟩
  | err e =>
    cases e with
    | ioError => exact absurd h (by simp [okOrData])
    | dataError msg => exact Or.inr ⟨msg, rfl⟩
  | panic => exact absurd h (by simp [okOrData])

theorem okOrData_bind {α β : Type} {x : Res α} {f : α → Res β}
    (hx : okOrData x) (hf : ∀ a, okOrData (f a)) : okOrData (Res.bind x f) := by
  cases x with
  | ok a => exact hf a
  | err e => cases e with
    | ioError => exact absurd hx (by simp [okOrData])
    | dataError msg => trivial
  | panic => exact absurd hx (by simp [okOrData])

theorem bind_isData {α β : Type} {x : Res α} {f : α → Res β}
    (hx : okOrData x) (hf : ∀ a, x = .ok a → isDataErr (f a)) :
    isDataErr (Res.bind x f) := by
  rcases okOrData_elim hx with ⟨a, ha⟩ | ⟨msg, hmsg⟩
  · rw [ha]; exact hf a ha
  · exact ⟨msg, by rw [hmsg]; rfl⟩

theorem isData_bind {α β : Type} {x : Res α} {f : α → Res β}
    (hx : isDataErr x) : isDataErr (Res.bind x f) := by
  rcases hx with ⟨msg, hmsg⟩
  exact ⟨msg, by rw [hmsg]; rfl⟩

theorem bind_eq_res_bind {α β : Type} (x : Res α) (f : α → Res β) :
    x >>= f = Res.bind x f := rfl

theorem okOrData_parseI32R (s : String) : okOrData (parseI32R s) := by
  unfold parseI32R
  cases parseIntCore? s.data with
  | none => trivial
  | some n =>
    dsimp only
    split_ifs <;> trivial

theorem okOrData_parseI64R (s : String) : okOrData (parseI64R s) := by
  unfold parseI64R
  cases parseIntCore? s.data with
  | none => trivial
  | some n =>
    dsimp only
    split_ifs <;> trivial

theorem okOrData_parseU64R (s : String) : okOrData (parseU64R s) := by
  unfold parseU64R
  cases parseUnsignedCore? s.data with
  | none => trivial
  | some n =>
    dsimp only
    split_ifs <;> trivial

theorem okOrData_parseU8R (s : String) : okOrData (parseU8R s) := by
  unfold parseU8R
  cases parseUnsignedCore? s.data with
  | none => trivial
  | some n =>
    dsimp only
    split_ifs <;> trivial

theorem okOrData_parseFloatR (s : String) : okOrData (parseFloatR s) := by
  unfold parseFloatR
  cases parseFloatCore? s.data <;> trivial

theorem okOrData_parseAllFloats (ps : List String) :
    okOrData (parseAllFloats ps) := by
  induction ps with
  | nil => trivial
  | cons p ps ih =>
    unfold parseAllFloats
    rw [bind_eq_res_bind]
    refine okOrData_bind (okOrData_parseFloatR p) (fun v => ?_)
    rw [bind_eq_res_bind]
    exact okOrData_bind ih (fun vs => trivial)

theorem parseAllFloats_length {ps : List String} {vs : List DecFloat}
    (h : parseAllFloats ps = .ok vs) : vs.length = ps.length := by
  induction ps generalizing vs with
  | nil => cases h; rfl
  | cons p ps ih =>
    unfold parseAllFloats at h
    rw [bind_eq_res_bind] at h
    obtain ⟨v, hv, h⟩ := Res.bind_ok h
    rw [bind_eq_res_bind] at h
    obtain ⟨vs', hvs, h⟩ := Res.bind_ok h
    cases h
    simpa using congrArg Nat.succ (ih hvs)

end Brush

namespace Brush

theorem okOrData_parseTrackChunks (cs : List (List String)) :
    okOrData (parseTrackChunks cs) := by
  induction cs with
  | nil => trivial
  | cons c cs ih =>
    rcases c with _ | ⟨a, _ | ⟨b, t⟩⟩
    · trivial
    · trivial
    · cases t with
      | nil =>
        unfold parseTrackChunks
        dsimp only
        rw [bind_eq_res_bind]
        refine okOrData_bind (okOrData_parseI32R a) (fun i => ?_)
        rw [bind_eq_res_bind]
        refine okOrData_bind (okOrData_parseI32R b) (fun j => ?_)
        rw [bind_eq_res_bind]
        refine okOrData_bind ih (fun p => ?_)
        rcases p with ⟨iids, idxs⟩
        trivial
      | cons x xs => trivial

/-- An odd-length token tail makes the track loop fail with
`InvalidData` (the final length-1 chunk if nothing fails earlier). -/
theorem trackChunks_odd :
    ∀ ts : List String, ts.length % 2 = 1 →
      isDataErr (parseTrackChunks (chunks2 ts))
  | [] => by simp
  | [a] => fun _ => ⟨"Invalid point3D track data", rfl⟩
  | a :: b :: rest => fun h => by
    have hrest : rest.length % 2 = 1 := by
      simp only [List.length_cons] at h
      omega
    show isDataErr (parseTrackChunks ([a, b] :: chunks2 rest))
    unfold parseTrackChunks
    dsimp only
    rw [bind_eq_res_bind]
    refine bind_isData (okOrData_parseI32R a) (fun i _ => ?_)
    rw [bind_eq_res_bind]
    refine bind_isData (okOrData_parseI32R b) (fun j _ => ?_)
    rw [bind_eq_res_bind]
    exact isData_bind (trackChunks_odd rest hrest)

theorem okOrData_parsePointLine (l : String) : okOrData (parsePointLine l) := by
  unfold parsePointLine
  dsimp only
  split_ifs
  · trivial
  · rw [bind_eq_res_bind]
    refine okOrData_bind (okOrData_parseI64R _) (fun id => ?_)
    rw [bind_eq_res_bind]
    refine okOrData_bind (okOrData_parseFloatR _) (fun x => ?_)
    rw [bind_eq_res_bind]
    refine okOrData_bind (okOrData_parseFloatR _) (fun y => ?_)
    rw [bind_eq_res_bind]
    refine okOrData_bind (okOrData_parseFloatR _) (fun z => ?_)
    rw [bind_eq_res_bind]
    refine okOrData_bind (okOrData_parseU8R _) (fun r => ?_)
    rw [bind_eq_res_bind]
    refine okOrData_bind (okOrData_parseU8R _) (fun g => ?_)
    rw [bind_eq_res_bind]
    refine okOrData_bind (okOrData_parseU8R _) (fun b => ?_)
    rw [bind_eq_res_bind]
    refine okOrData_bind (okOrData_parseFloatR _) (fun e => ?_)
    rw [bind_eq_res_bind]
    refine okOrData_bind (okOrData_parseTrackChunks _) (fun p => ?_)
    rcases p with ⟨iids, idxs⟩
    trivial

/-- A non-comment "record" line whose token tail after the 8 fixed
point fields has odd length. -/
def oddTrackLine (l : String) : Prop :=
  startsHash l = false ∧ 8 ≤ (splitWS l).length ∧
    ((splitWS l).length - 8) % 2 = 1

theorem parsePointLine_odd {l : String} (h : oddTrackLine l) :
    isDataErr (parsePointLine l) := by
  obtain ⟨-, hlen, hodd⟩ := h
  unfold parsePointLine
  dsimp only
  split_ifs with hlt
  · exact ⟨"Invalid point3D data", rfl⟩
  · rw [bind_eq_res_bind]
    refine bind_isData (okOrData_parseI64R _) (fun id _ => ?_)
    rw [bind_eq_res_bind]
    refine bind_isData (okOrData_parseFloatR _) (fun x _ => ?_)
    rw [bind_eq_res_bind]
    refine bind_isData (okOrData_parseFloatR _) (fun y _ => ?_)
    rw [bind_eq_res_bind]
    refine bind_isData (okOrData_parseFloatR _) (fun z _ => ?_)
    rw [bind_eq_res_bind]
    refine bind_isData (okOrData_parseU8R _) (fun r _ => ?_)
    rw [bind_eq_res_bind]
    refine bind_isData (okOrData_parseU8R _) (fun g _ => ?_)
    rw [bind_eq_res_bind]
    refine bind_isData (okOrData_parseU8R _) (fun b _ => ?_)
    rw [bind_eq_res_bind]
    refine bind_isData (okOrData_parseFloatR _) (fun e _ => ?_)
    rw [bind_eq_res_bind]
    refine isData_bind (trackChunks_odd _ ?_)
    rw [List.length_drop]
    exact hodd

theorem points_text_loop_odd :
    ∀ (lines : List String) (m0 : HMap Int (Point3D DecFloat DecFloat)),
      (∃ l ∈ lines, oddTrackLine l) →
      isDataErr (read_points3d_text_loop lines m0) := by
  intro lines
  induction lines with
  | nil => rintro m0 ⟨l, hl, -⟩; cases hl
  | cons l rest ih =>
    rintro m0 ⟨w, hw, hwodd⟩
    unfold read_points3d_text_loop
    by_cases hc : startsHash l
    · rw [if_pos hc]
      rcases List.mem_cons.mp hw with rfl | hwrest
      · rw [hwodd.1] at hc; cases hc
      · exact ih m0 ⟨w, hwrest, hwodd⟩
    · rw [if_neg hc]
      rcases okOrData_elim (okOrData_parsePointLine l) with ⟨a, ha⟩ | ⟨msg, hmsg⟩
      · rw [ha]
        rcases List.mem_cons.mp hw with rfl | hwrest
        · rcases parsePointLine_odd hwodd with ⟨msg, hmsg⟩
          rw [hmsg] at ha; cases ha
        · exact ih _ ⟨w, hwrest, hwodd⟩
      · exact ⟨msg, by rw [hmsg]; rfl⟩

/-- C5: a text points section containing a record line whose track tail
has odd length decodes to an `InvalidData` error (a `DataError`). -/
theorem c5_points_text_odd_track_data_error :
    ∀ lines : List String, (∃ l ∈ lines, oddTrackLine l) →
      ∃ msg, read_points3d_text lines = .err (.dataError msg) :=
  fun lines h => points_text_loop_odd lines HMap.empty h

/-- C5 witness: a concrete record with an 11-token line (3-token odd
tail). -/
theorem c5_points_text_odd_track_data_error_witness :
    ∃ msg, read_points3d_text ["1 0 0 0 10 20 30 0.5 7 0 8"] =
      .err (.dataError msg) :=
  c5_points_text_odd_track_data_error ["1 0 0 0 10 20 30 0.5 7 0 8"]
    ⟨"1 0 0 0 10 20 30 0.5 7 0 8", by simp, by refine ⟨?_, ?_, ?_⟩ <;> decide⟩

end Brush

namespace Brush

theorem okOrData_parseCameraLine (l : String) : okOrData (parseCameraLine l) := by
  unfold parseCameraLine
  dsimp only
  split_ifs
  · trivial
  · rw [bind_eq_res_bind]
    refine okOrData_bind (okOrData_parseI32R _) (fun id => ?_)
    rw [bind_eq_res_bind]
    refine okOrData_bind ?_ (fun mdl => ?_)
    · cases CameraModel.from_name ((splitWS l).getD 1 "") <;> trivial
    · rw [bind_eq_res_bind]
      refine okOrData_bind (okOrData_parseU64R _) (fun w => ?_)
      rw [bind_eq_res_bind]
      refine okOrData_bind (okOrData_parseU64R _) (fun h => ?_)
      rw [bind_eq_res_bind]
      refine okOrData_bind (okOrData_parseAllFloats _) (fun ps => ?_)
      split_ifs <;> trivial

/-- A non-comment camera line that is malformed in one of the three
claimed ways: fewer than 4 tokens, unrecognized model name, or wrong
trailing parameter count. -/
def badCameraLine (l : String) : Prop :=
  startsHash l = false ∧
  ((splitWS l).length < 4 ∨
   CameraModel.from_name ((splitWS l).getD 1 "") = none ∨
   (∃ mdl, CameraModel.from_name ((splitWS l).getD 1 "") = some mdl ∧
     (splitWS l).length - 4 ≠ mdl.num_params))

theorem parseCameraLine_bad {l : String} (h : badCameraLine l) :
    isDataErr (parseCameraLine l) := by
  obtain ⟨-, hbad⟩ := h
  unfold parseCameraLine
  dsimp only
  split_ifs with hlt
  · exact ⟨"Invalid camera data", rfl⟩
  · rcases hbad with hbad | hbad | ⟨mdl, hmdl, harity⟩
    · exact absurd hbad hlt
    · rw [bind_eq_res_bind]
      refine bind_isData (okOrData_parseI32R _) (fun id _ => ?_)
      rw [hbad]
      exact ⟨"Invalid camera model", rfl⟩
    · rw [bind_eq_res_bind]
      refine bind_isData (okOrData_parseI32R _) (fun id _ => ?_)
      rw [hmdl]
      rw [bind_eq_res_bind]
      refine bind_isData (by trivial) (fun mdl' hmdl' => ?_)
      cases hmdl'
      rw [bind_eq_res_bind]
      refine bind_isData (okOrData_parseU64R _) (fun w _ => ?_)
      rw [bind_eq_res_bind]
      refine bind_isData (okOrData_parseU64R _) (fun ht _ => ?_)
      rw [bind_eq_res_bind]
      refine bind_isData (okOrData_parseAllFloats _) (fun ps hps => ?_)
      have hplen : ps.length = (splitWS l).length - 4 := by
        rw [parseAllFloats_length hps, List.length_drop]
      rw [if_pos (by rw [hplen]; exact harity)]
      exact ⟨"Invalid number of camera parameters", rfl⟩

theorem cameras_text_loop_bad :
    ∀ (lines : List String) (m0 : HMap Int (Camera DecFloat)),
      (∃ l ∈ lines, badCameraLine l) →
      isDataErr (read_cameras_text_loop lines m0) := by
  intro lines
  induction lines with
  | nil => rintro m0 ⟨l, hl, -⟩; cases hl
  | cons l rest ih =>
    rintro m0 ⟨w, hw, hwbad⟩
    unfold read_cameras_text_loop
    by_cases hc : startsHash l
    · rw [if_pos hc]
      rcases List.mem_cons.mp hw with rfl | hwrest
      · rw [hwbad.1] at hc; cases hc
      · exact ih m0 ⟨w, hwrest, hwbad⟩
    · rw [if_neg hc]
      rcases okOrData_elim (okOrData_parseCameraLine l) with ⟨a, ha⟩ | ⟨msg, hmsg⟩
      · rw [ha]
        rcases List.mem_cons.mp hw with rfl | hwrest
        · rcases parseCameraLine_bad hwbad with ⟨msg, hmsg⟩
          rw [hmsg] at ha; cases ha
        · exact ih _ ⟨w, hwrest, hwbad⟩
      · exact ⟨msg, by rw [hmsg]; rfl⟩

/-- C6: a text cameras section containing a non-comment line with fewer
than 4 tokens, an unrecognized model name, or a wrong trailing
parameter count decodes to an `InvalidData` error, and no mapping at
all is returned (records decoded before the malformed line are
discarded with the failed call). -/
theorem c6_cameras_text_malformed_data_error :
    ∀ lines : List String, (∃ l ∈ lines, badCameraLine l) →
      (∃ msg, read_cameras_text lines = .err (.dataError msg)) ∧
      ∀ m, read_cameras_text lines ≠ .ok m := by
  intro lines h
  obtain ⟨msg, hmsg⟩ := cameras_text_loop_bad lines HMap.empty h
  exact ⟨⟨msg, hmsg⟩, fun m hm => by
    unfold read_cameras_text at hm
    rw [hm] at hmsg; cases hmsg⟩

/-- C6 witness: a valid camera record followed by a wrong-arity line
(SIMPLE_PINHOLE with 2 parameters). -/
theorem c6_cameras_text_malformed_data_error_witness :
    (∃ msg, read_cameras_text
      ["0 SIMPLE_PINHOLE 100 100 50 50 50", "1 SIMPLE_PINHOLE 100 100 50 50"] =
        .err (.dataError msg)) ∧
    ∀ m, read_cameras_text
      ["0 SIMPLE_PINHOLE 100 100 50 50 50", "1 SIMPLE_PINHOLE 100 100 50 50"] ≠
        .ok m :=
  c6_cameras_text_malformed_data_error
    ["0 SIMPLE_PINHOLE 100 100 50 50 50", "1 SIMPLE_PINHOLE 100 100 50 50"]
    ⟨"1 SIMPLE_PINHOLE 100 100 50 50", by simp,
      by exact ⟨by decide, Or.inr (Or.inr ⟨.SimplePinhole, by decide, by decide⟩)⟩⟩

end Brush

namespace Brush

/-! ## Parallel-sequence length invariants (C9) -/

theorem RM.bind_run_ok {α β : Type} {x : RM α} {f : α → RM β} {s : Bytes}
    {b : β} {s'' : Bytes} (h : (x >>= f) s = .ok (b, s'')) :
    ∃ a s', x s = .ok (a, s') ∧ f a s' = .ok (b, s'') := by
  have hdef : (x >>= f) s =
      (match x s with
       | .ok (a, s') => f a s'
       | .err e => .err e
       | .panic => .panic) := rfl
  rw [hdef] at h
  cases hx : x s with
  | ok p =>
    rcases p with ⟨a, s'⟩
    rw [hx] at h
    exact ⟨a, s', rfl, h⟩
  | err e => rw [hx] at h; cases h
  | panic => rw [hx] at h; cases h

theorem HMap.insert_forall {κ α : Type} [DecidableEq κ] {P : α → Prop}
    {m : HMap κ α} {k0 : κ} {v0 : α}
    (hm : ∀ k v, m k = some v → P v) (hv : P v0) :
    ∀ k v, (m.insert k0 v0) k = some v → P v := by
  intro k v h
  unfold HMap.insert at h
  split_ifs at h
  · cases h; exact hv
  · exact hm k v h

theorem HMap.empty_forall {κ α : Type} {P : α → Prop} :
    ∀ k v, (HMap.empty : HMap κ α) k = some v → P v := by
  intro k v h
  cases h

theorem parseObsChunks_len {cs : List (List String)}
    {xys : List (V2 DecFloat)} {pids : List Int}
    (h : parseObsChunks cs = .ok (xys, pids)) :
    xys.length = pids.length := by
  induction cs generalizing xys pids with
  | nil => cases h; rfl
  | cons c cs ih =>
    rcases c with _ | ⟨a, _ | ⟨b, _ | ⟨c3, t⟩⟩⟩
    · cases h
    · unfold parseObsChunks at h
      dsimp only at h
      obtain ⟨_, -, h⟩ := Res.bind_ok h
      cases h
    · unfold parseObsChunks at h
      dsimp only at h
      simp only [bind_eq_res_bind] at h
      obtain ⟨_, -, h⟩ := Res.bind_ok h
      obtain ⟨_, -, h⟩ := Res.bind_ok h
      cases h
    · unfold parseObsChunks at h
      dsimp only at h
      simp only [bind_eq_res_bind] at h
      obtain ⟨x, -, h⟩ := Res.bind_ok h
      obtain ⟨y, -, h⟩ := Res.bind_ok h
      obtain ⟨pid, -, h⟩ := Res.bind_ok h
      obtain ⟨p, hp, h⟩ := Res.bind_ok h
      rcases p with ⟨xys', pids'⟩
      cases h
      simpa using ih hp

theorem parseImageTokens_len {es obs : List String} {id : Int}
    {img : Image DecFloat} (h : parseImageTokens es obs = .ok (id, img)) :
    img.xys.length = img.point3d_ids.length := by
  unfold parseImageTokens at h
  simp only [bind_eq_res_bind] at h
  obtain ⟨t0, -, h⟩ := Res.bind_ok h
  obtain ⟨hid, -, h⟩ := Res.bind_ok h
  obtain ⟨t1, -, h⟩ := Res.bind_ok h
  obtain ⟨w, -, h⟩ := Res.bind_ok h
  obtain ⟨t2, -, h⟩ := Res.bind_ok h
  obtain ⟨x, -, h⟩ := Res.bind_ok h
  obtain ⟨t3, -, h⟩ := Res.bind_ok h
  obtain ⟨y, -, h⟩ := Res.bind_ok h
  obtain ⟨t4, -, h⟩ := Res.bind_ok h
  obtain ⟨z, -, h⟩ := Res.bind_ok h
  obtain ⟨t5, -, h⟩ := Res.bind_ok h
  obtain ⟨v1, -, h⟩ := Res.bind_ok h
  obtain ⟨t6, -, h⟩ := Res.bind_ok h
  obtain ⟨v2, -, h⟩ := Res.bind_ok h
  obtain ⟨t7, -, h⟩ := Res.bind_ok h
  obtain ⟨v3, -, h⟩ := Res.bind_ok h
  obtain ⟨t8, -, h⟩ := Res.bind_ok h
  obtain ⟨cid, -, h⟩ := Res.bind_ok h
  obtain ⟨nm, -, h⟩ := Res.bind_ok h
  obtain ⟨p, hp, h⟩ := Res.bind_ok h
  rcases p with ⟨xys, pids⟩
  cases h
  exact parseObsChunks_len hp

theorem images_text_loop_len :
    ∀ (lines : List String) (m0 : HMap Int (Image DecFloat)),
      (∀ k img, m0 k = some img →
        img.xys.length = img.point3d_ids.length) →
      ∀ m, read_images_text_loop lines m0 = .ok m →
      ∀ k img, m k = some img → img.xys.length = img.point3d_ids.length := by
  intro lines m0
  induction lines, m0 using read_images_text_loop.induct with
  | case1 m0 =>
    intro hm0 m h
    cases h
    exact hm0
  | case2 l m0 hc =>
    intro hm0 m h
    rw [read_images_text_loop, if_pos hc] at h
    cases h
    exact hm0
  | case3 l m0 hc ih =>
    intro hm0 m h
    rw [read_images_text_loop, if_neg hc] at h
    obtain ⟨p, hp, h⟩ := Res.bind_ok h
    rcases p with ⟨id, img⟩
    cases h
    exact HMap.insert_forall hm0 (parseImageTokens_len hp)
  | case4 l l2 rest2 m0 hc ih =>
    intro hm0 m h
    rw [read_images_text_loop, if_pos hc] at h
    exact ih hm0 m h
  | case5 l l2 rest2 m0 hc ih =>
    intro hm0 m h
    rw [read_images_text_loop, if_neg hc] at h
    obtain ⟨p, hp, h⟩ := Res.bind_ok h
    rcases p with ⟨id, img⟩
    exact ih (id, img) (HMap.insert_forall hm0 (parseImageTokens_len hp)) m h

theorem parseTrackChunks_len {cs : List (List String)}
    {iids idxs : List Int} (h : parseTrackChunks cs = .ok (iids, idxs)) :
    iids.length = idxs.length := by
  induction cs generalizing iids idxs with
  | nil => cases h; rfl
  | cons c cs ih =>
    rcases c with _ | ⟨a, _ | ⟨b, t⟩⟩
    · cases h
    · cases h
    · cases t with
      | nil =>
        unfold parseTrackChunks at h
        dsimp only at h
        simp only [bind_eq_res_bind] at h
        obtain ⟨i, -, h⟩ := Res.bind_ok h
        obtain ⟨j, -, h⟩ := Res.bind_ok h
        obtain ⟨p, hp, h⟩ := Res.bind_ok h
        rcases p with ⟨iids', idxs'⟩
        cases h
        simpa using ih hp
      | cons u us => cases h

theorem parsePointLine_len {l : String} {id : Int}
    {p : Point3D DecFloat DecFloat} (h : parsePointLine l = .ok (id, p)) :
    p.image_ids.length = p.point2d_idxs.length := by
  unfold parsePointLine at h
  dsimp only at h
  split_ifs at h
  simp only [bind_eq_res_bind] at h
  obtain ⟨pid, -, h⟩ := Res.bind_ok h
  obtain ⟨x, -, h⟩ := Res.bind_ok h
  obtain ⟨y, -, h⟩ := Res.bind_ok h
  obtain ⟨z, -, h⟩ := Res.bind_ok h
  obtain ⟨r, -, h⟩ := Res.bind_ok h
  obtain ⟨g, -, h⟩ := Res.bind_ok h
  obtain ⟨b, -, h⟩ := Res.bind_ok h
  obtain ⟨e, -, h⟩ := Res.bind_ok h
  obtain ⟨q, hq, h⟩ := Res.bind_ok h
  rcases q with ⟨iids, idxs⟩
  cases h
  exact parseTrackChunks_len hq

theorem points_text_loop_len :
    ∀ (lines : List String) (m0 m : HMap Int (Point3D DecFloat DecFloat)),
      (∀ k p, m0 k = some p →
        p.image_ids.length = p.point2d_idxs.length) →
      read_points3d_text_loop lines m0 = .ok m →
      ∀ k p, m k = some p → p.image_ids.length = p.point2d_idxs.length := by
  intro lines
  induction lines with
  | nil =>
    intro m0 m hm0 h
    cases h
    exact hm0
  | cons l rest ih =>
    intro m0 m hm0 h
    unfold read_points3d_text_loop at h
    by_cases hc : startsHash l
    · rw [if_pos hc] at h
      exact ih m0 m hm0 h
    · rw [if_neg hc] at h
      obtain ⟨p, hp, h⟩ := Res.bind_ok h
      rcases p with ⟨id, pt⟩
      exact ih _ m (HMap.insert_forall hm0 (parsePointLine_len hp)) h

end Brush

namespace Brush

theorem readObsB_len :
    ∀ {n : Nat} {s : Bytes} {xys : List (V2 Nat)} {pids : List Int}
      {s' : Bytes}, readObsB n s = .ok ((xys, pids), s') →
      xys.length = pids.length := by
  intro n
  induction n with
  | zero =>
    intro s xys pids s' h
    cases h
    rfl
  | succ n ih =>
    intro s xys pids s' h
    rw [readObsB] at h
    obtain ⟨x, s1, -, h⟩ := RM.bind_run_ok h
    obtain ⟨y, s2, -, h⟩ := RM.bind_run_ok h
    obtain ⟨pid, s3, -, h⟩ := RM.bind_run_ok h
    obtain ⟨p, s4, hp, h⟩ := RM.bind_run_ok h
    rcases p with ⟨xys', pids'⟩
    cases h
    simpa using ih hp

theorem readImageRecB_len {s : Bytes} {id : Int} {img : Image Nat}
    {s' : Bytes} (h : readImageRecB s = .ok ((id, img), s')) :
    img.xys.length = img.point3d_ids.length := by
  unfold readImageRecB at h
  obtain ⟨iid, s1, -, h⟩ := RM.bind_run_ok h
  obtain ⟨w, s2, -, h⟩ := RM.bind_run_ok h
  obtain ⟨x, s3, -, h⟩ := RM.bind_run_ok h
  obtain ⟨y, s4, -, h⟩ := RM.bind_run_ok h
  obtain ⟨z, s5, -, h⟩ := RM.bind_run_ok h
  obtain ⟨t1, s6, -, h⟩ := RM.bind_run_ok h
  obtain ⟨t2, s7, -, h⟩ := RM.bind_run_ok h
  obtain ⟨t3, s8, -, h⟩ := RM.bind_run_ok h
  obtain ⟨cid, s9, -, h⟩ := RM.bind_run_ok h
  obtain ⟨nb, s10, -, h⟩ := RM.bind_run_ok h
  obtain ⟨nm, s11, -, h⟩ := RM.bind_run_ok h
  obtain ⟨num, s12, -, h⟩ := RM.bind_run_ok h
  obtain ⟨p, s13, hp, h⟩ := RM.bind_run_ok h
  rcases p with ⟨xys, pids⟩
  cases h
  exact readObsB_len hp

theorem imagesBinLoop_len :
    ∀ (n : Nat) (m0 : HMap Int (Image Nat)) (s : Bytes)
      (m : HMap Int (Image Nat)) (s' : Bytes),
      (∀ k img, m0 k = some img →
        img.xys.length = img.point3d_ids.length) →
      readImagesBinLoop n m0 s = .ok (m, s') →
      ∀ k img, m k = some img → img.xys.length = img.point3d_ids.length := by
  intro n
  induction n with
  | zero =>
    intro m0 s m s' hm0 h
    cases h
    exact hm0
  | succ n ih =>
    intro m0 s m s' hm0 h
    rw [readImagesBinLoop] at h
    obtain ⟨p, s1, hp, h⟩ := RM.bind_run_ok h
    rcases p with ⟨id, img⟩
    exact ih _ s1 m s' (HMap.insert_forall hm0 (readImageRecB_len hp)) h

theorem readTrackB_len :
    ∀ {n : Nat} {s : Bytes} {iids idxs : List Int} {s' : Bytes},
      readTrackB n s = .ok ((iids, idxs), s') → iids.length = idxs.length := by
  intro n
  induction n with
  | zero =>
    intro s iids idxs s' h
    cases h
    rfl
  | succ n ih =>
    intro s iids idxs s' h
    rw [readTrackB] at h
    obtain ⟨i, s1, -, h⟩ := RM.bind_run_ok h
    obtain ⟨j, s2, -, h⟩ := RM.bind_run_ok h
    obtain ⟨p, s3, hp, h⟩ := RM.bind_run_ok h
    rcases p with ⟨iids', idxs'⟩
    cases h
    simpa using ih hp

theorem readPointRecB_len {s : Bytes} {id : Int} {pt : Point3D Nat Nat}
    {s' : Bytes} (h : readPointRecB s = .ok ((id, pt), s')) :
    pt.image_ids.length = pt.point2d_idxs.length := by
  unfold readPointRecB at h
  obtain ⟨pid, s1, -, h⟩ := RM.bind_run_ok h
  obtain ⟨x, s2, -, h⟩ := RM.bind_run_ok h
  obtain ⟨y, s3, -, h⟩ := RM.bind_run_ok h
  obtain ⟨z, s4, -, h⟩ := RM.bind_run_ok h
  obtain ⟨r, s5, -, h⟩ := RM.bind_run_ok h
  obtain ⟨g, s6, -, h⟩ := RM.bind_run_ok h
  obtain ⟨b, s7, -, h⟩ := RM.bind_run_ok h
  obtain ⟨e, s8, -, h⟩ := RM.bind_run_ok h
  obtain ⟨tl, s9, -, h⟩ := RM.bind_run_ok h
  obtain ⟨p, s10, hp, h⟩ := RM.bind_run_ok h
  rcases p with ⟨iids, idxs⟩
  cases h
  exact readTrackB_len hp

theorem pointsBinLoop_len :
    ∀ (n : Nat) (m0 : HMap Int (Point3D Nat Nat)) (s : Bytes)
      (m : HMap Int (Point3D Nat Nat)) (s' : Bytes),
      (∀ k pt, m0 k = some pt →
        pt.image_ids.length = pt.point2d_idxs.length) →
      readPointsBinLoop n m0 s = .ok (m, s') →
      ∀ k pt, m k = some pt →
        pt.image_ids.length = pt.point2d_idxs.length := by
  intro n
  induction n with
  | zero =>
    intro m0 s m s' hm0 h
    cases h
    exact hm0
  | succ n ih =>
    intro m0 s m s' hm0 h
    rw [readPointsBinLoop] at h
    obtain ⟨p, s1, hp, h⟩ := RM.bind_run_ok h
    rcases p with ⟨id, pt⟩
    exact ih _ s1 m s' (HMap.insert_forall hm0 (readPointRecB_len hp)) h

/-- C9: every mapping successfully returned by the image and point
decoders (text and binary) has equal-length parallel sequences: every
`Image` satisfies `xys.length = point3d_ids.length` and every `Point3D`
satisfies `image_ids.length = point2d_idxs.length`.  (The camera
decoders carry no parallel sequences.) -/
theorem c9_parallel_lengths :
    (∀ (lines : List String) (m : HMap Int (Image DecFloat)),
      read_images_text lines = .ok m →
      ∀ k img, m k = some img →
        img.xys.length = img.point3d_ids.length) ∧
    (∀ (s : Bytes) (m : HMap Int (Image Nat)),
      read_images_binary s = .ok m →
      ∀ k img, m k = some img →
        img.xys.length = img.point3d_ids.length) ∧
    (∀ (lines : List String) (m : HMap Int (Point3D DecFloat DecFloat)),
      read_points3d_text lines = .ok m →
      ∀ k pt, m k = some pt →
        pt.image_ids.length = pt.point2d_idxs.length) ∧
    (∀ (s : Bytes) (m : HMap Int (Point3D Nat Nat)),
      read_points3d_binary s = .ok m →
      ∀ k pt, m k = some pt →
        pt.image_ids.length = pt.point2d_idxs.length) := by
  refine ⟨?_, ?_, ?_, ?_⟩
  · intro lines m h
    exact images_text_loop_len lines HMap.empty HMap.empty_forall m h
  · intro s m h
    unfold read_images_binary at h
    revert h
    cases hrun : (do
        let n ← read_u64_le
        readImagesBinLoop n HMap.empty : RM (HMap Int (Image Nat))) s with
    | ok p =>
      rcases p with ⟨m', s'⟩
      intro h
      cases h
      obtain ⟨n, s1, -, hloop⟩ := RM.bind_run_ok hrun
      exact imagesBinLoop_len n HMap.empty s1 _ s' HMap.empty_forall hloop
    | err e => intro h; cases h
    | panic => intro h; cases h
  · intro lines m h
    exact points_text_loop_len lines HMap.empty m HMap.empty_forall h
  · intro s m h
    unfold read_points3d_binary at h
    revert h
    cases hrun : (do
        let n ← read_u64_le
        readPointsBinLoop n HMap.empty : RM (HMap Int (Point3D Nat Nat))) s with
    | ok p =>
      rcases p with ⟨m', s'⟩
      intro h
      cases h
      obtain ⟨n, s1, -, hloop⟩ := RM.bind_run_ok hrun
      exact pointsBinLoop_len n HMap.empty s1 _ s' HMap.empty_forall hloop
    | err e => intro h; cases h
    | panic => intro h; cases h

end Brush

namespace Brush

/-- Concrete evaluation: a two-line text image record decodes to a
singleton map. -/
theorem eval_images_text_good :
    read_images_text ["1 1 0 0 0 0 0 0 1 img", "5 6 -1"] =
      .ok (HMap.empty.insert 1
        ⟨⟨⟨0,0⟩,⟨0,0⟩,⟨0,0⟩⟩, ⟨⟨0,0⟩,⟨0,0⟩,⟨0,0⟩,⟨1,0⟩⟩, 1, "img",
          [⟨⟨5,0⟩,⟨6,0⟩⟩], [-1]⟩) := rfl

/-- Concrete evaluation: a one-record binary images section decodes to
a singleton map (the observation id bytes `01 00 .. 00` decode
big-endian to `2^56`). -/
theorem eval_images_binary_good :
    read_images_binary
      ([1,0,0,0,0,0,0,0] ++ [3,0,0,0] ++ List.replicate 56 0 ++ [2,0,0,0] ++
        [104,105,0] ++ [1,0,0,0,0,0,0,0] ++ List.replicate 16 0 ++
        [1,0,0,0,0,0,0,0]) =
      .ok (HMap.empty.insert 3
        ⟨⟨0,0,0⟩, ⟨0,0,0,0⟩, 2, "hi", [⟨0,0⟩], [72057594037927936]⟩) := rfl

/-- Concrete evaluation: a one-line text point record with one track
pair. -/
theorem eval_points_text_good :
    read_points3d_text ["1 0 0 0 10 20 30 0.5 7 0"] =
      .ok (HMap.empty.insert 1
        ⟨⟨⟨0,0⟩,⟨0,0⟩,⟨0,0⟩⟩, (10,20,30), ⟨5,-1⟩, [7], [0]⟩) := rfl

/-- Concrete evaluation: a one-record binary points section with a
two-pair track (the id bytes `01 00 .. 00` decode big-endian to
`2^56`). -/
theorem eval_points_binary_good :
    read_points3d_binary
      ([1,0,0,0,0,0,0,0] ++ [1,0,0,0,0,0,0,0] ++ List.replicate 24 0 ++
        [9,9,9] ++ List.replicate 8 0 ++ [2,0,0,0,0,0,0,0] ++
        [7,0,0,0] ++ [1,0,0,0] ++ [8,0,0,0] ++ [2,0,0,0]) =
      .ok (HMap.empty.insert 72057594037927936
        ⟨⟨0,0,0⟩, (9,9,9), 0, [7,8], [1,2]⟩) := rfl

set_option maxHeartbeats 2000000 in
/-- C9 witness: concrete decodes through all four observation-carrying
decoders, with the invariant instantiated on the decoded entities. -/
theorem c9_parallel_lengths_witness :
    ((⟨⟨⟨0,0⟩,⟨0,0⟩,⟨0,0⟩⟩, ⟨⟨0,0⟩,⟨0,0⟩,⟨0,0⟩,⟨1,0⟩⟩, 1, "img",
        [⟨⟨5,0⟩,⟨6,0⟩⟩], [-1]⟩ : Image DecFloat).xys.length =
      (⟨⟨⟨0,0⟩,⟨0,0⟩,⟨0,0⟩⟩, ⟨⟨0,0⟩,⟨0,0⟩,⟨0,0⟩,⟨1,0⟩⟩, 1, "img",
        [⟨⟨5,0⟩,⟨6,0⟩⟩], [-1]⟩ : Image DecFloat).point3d_ids.length) ∧
    ((⟨⟨0,0,0⟩, ⟨0,0,0,0⟩, 2, "hi", [⟨0,0⟩],
        [72057594037927936]⟩ : Image Nat).xys.length =
      (⟨⟨0,0,0⟩, ⟨0,0,0,0⟩, 2, "hi", [⟨0,0⟩],
        [72057594037927936]⟩ : Image Nat).point3d_ids.length) ∧
    ((⟨⟨⟨0,0⟩,⟨0,0⟩,⟨0,0⟩⟩, (10,20,30), ⟨5,-1⟩, [7],
        [0]⟩ : Point3D DecFloat DecFloat).image_ids.length =
      (⟨⟨⟨0,0⟩,⟨0,0⟩,⟨0,0⟩⟩, (10,20,30), ⟨5,-1⟩, [7],
        [0]⟩ : Point3D DecFloat DecFloat).point2d_idxs.length) ∧
    ((⟨⟨0,0,0⟩, (9,9,9), 0, [7,8],
        [1,2]⟩ : Point3D Nat Nat).image_ids.length =
      (⟨⟨0,0,0⟩, (9,9,9), 0, [7,8],
        [1,2]⟩ : Point3D Nat Nat).point2d_idxs.length) :=
  ⟨c9_parallel_lengths.1 ["1 1 0 0 0 0 0 0 1 img", "5 6 -1"]
      (HMap.empty.insert 1
        ⟨⟨⟨0,0⟩,⟨0,0⟩,⟨0,0⟩⟩, ⟨⟨0,0⟩,⟨0,0⟩,⟨0,0⟩,⟨1,0⟩⟩, 1, "img",
          [⟨⟨5,0⟩,⟨6,0⟩⟩], [-1]⟩) eval_images_text_good 1 _ rfl,
   c9_parallel_lengths.2.1
      ([1,0,0,0,0,0,0,0] ++ [3,0,0,0] ++ List.replicate 56 0 ++ [2,0,0,0] ++
        [104,105,0] ++ [1,0,0,0,0,0,0,0] ++ List.replicate 16 0 ++
        [1,0,0,0,0,0,0,0])
      (HMap.empty.insert 3
        ⟨⟨0,0,0⟩, ⟨0,0,0,0⟩, 2, "hi", [⟨0,0⟩], [72057594037927936]⟩)
      eval_images_binary_good 3 _ rfl,
   c9_parallel_lengths.2.2.1 ["1 0 0 0 10 20 30 0.5 7 0"]
      (HMap.empty.insert 1
        ⟨⟨⟨0,0⟩,⟨0,0⟩,⟨0,0⟩⟩, (10,20,30), ⟨5,-1⟩, [7], [0]⟩)
      eval_points_text_good 1 _ rfl,
   c9_parallel_lengths.2.2.2
      ([1,0,0,0,0,0,0,0] ++ [1,0,0,0,0,0,0,0] ++ List.replicate 24 0 ++
        [9,9,9] ++ List.replicate 8 0 ++ [2,0,0,0,0,0,0,0] ++
        [7,0,0,0] ++ [1,0,0,0] ++ [8,0,0,0] ++ [2,0,0,0])
      (HMap.empty.insert 72057594037927936
        ⟨⟨0,0,0⟩, (9,9,9), 0, [7,8], [1,2]⟩)
      eval_points_binary_good 72057594037927936 _ rfl⟩

end Brush

namespace Brush

/-! ## Duplicate ids: last insert wins (C10) -/

theorem RM.bind_eval {α β : Type} (x : RM α) (f : α → RM β) (s : Bytes) :
    (x >>= f) s =
      (match x s with
       | .ok (a, s') => f a s'
       | .err e => .err e
       | .panic => .panic) := rfl

theorem camerasBinLoop2 {s1 s2 : Bytes} {id : Int} {c1 c2 : Camera Nat}
    (h1 : ∀ t, readCameraRecB (s1 ++ t) = .ok ((id, c1), t))
    (h2 : ∀ t, readCameraRecB (s2 ++ t) = .ok ((id, c2), t))
    (m0 : HMap Int (Camera Nat)) :
    readCamerasBinLoop 2 m0 (s1 ++ s2) =
      .ok ((m0.insert id c1).insert id c2, []) := by
  show (readCameraRecB >>= fun ic =>
    readCamerasBinLoop 1 (m0.insert ic.1 ic.2)) (s1 ++ s2) = _
  rw [RM.bind_eval, h1 s2]
  show (readCameraRecB >>= fun ic =>
    readCamerasBinLoop 0 ((m0.insert id c1).insert ic.1 ic.2)) s2 = _
  rw [RM.bind_eval]
  have h2' : readCameraRecB s2 = .ok ((id, c2), []) := by
    have h := h2 []
    rwa [List.append_nil] at h
  rw [h2']
  rfl

theorem imagesBinLoop2 {s1 s2 : Bytes} {id : Int} {i1 i2 : Image Nat}
    (h1 : ∀ t, readImageRecB (s1 ++ t) = .ok ((id, i1), t))
    (h2 : ∀ t, readImageRecB (s2 ++ t) = .ok ((id, i2), t))
    (m0 : HMap Int (Image Nat)) :
    readImagesBinLoop 2 m0 (s1 ++ s2) =
      .ok ((m0.insert id i1).insert id i2, []) := by
  show (readImageRecB >>= fun ii =>
    readImagesBinLoop 1 (m0.insert ii.1 ii.2)) (s1 ++ s2) = _
  rw [RM.bind_eval, h1 s2]
  show (readImageRecB >>= fun ii =>
    readImagesBinLoop 0 ((m0.insert id i1).insert ii.1 ii.2)) s2 = _
  rw [RM.bind_eval]
  have h2' : readImageRecB s2 = .ok ((id, i2), []) := by
    have h := h2 []
    rwa [List.append_nil] at h
  rw [h2']
  rfl

theorem pointsBinLoop2 {s1 s2 : Bytes} {id : Int} {p1 p2 : Point3D Nat Nat}
    (h1 : ∀ t, readPointRecB (s1 ++ t) = .ok ((id, p1), t))
    (h2 : ∀ t, readPointRecB (s2 ++ t) = .ok ((id, p2), t))
    (m0 : HMap Int (Point3D Nat Nat)) :
    readPointsBinLoop 2 m0 (s1 ++ s2) =
      .ok ((m0.insert id p1).insert id p2, []) := by
  show (readPointRecB >>= fun ip =>
    readPointsBinLoop 1 (m0.insert ip.1 ip.2)) (s1 ++ s2) = _
  rw [RM.bind_eval, h1 s2]
  show (readPointRecB >>= fun ip =>
    readPointsBinLoop 0 ((m0.insert id p1).insert ip.1 ip.2)) s2 = _
  rw [RM.bind_eval]
  have h2' : readPointRecB s2 = .ok ((id, p2), []) := by
    have h := h2 []
    rwa [List.append_nil] at h
  rw [h2']
  rfl

/-- C10: in all six decoders, two otherwise-valid records with the same
id decode without error, and the returned map holds the later record's
data for that id (`HashMap::insert` replaces; duplicates are never
rejected).  Text records are given as single-record lines (a leading
line pair for images); binary records as byte segments that decode as
one record wherever they are placed in the stream. -/
theorem c10_duplicate_ids_last_wins :
    (∀ (l1 l2 : String) (id : Int) (c1 c2 : Camera DecFloat),
      startsHash l1 = false → startsHash l2 = false →
      parseCameraLine l1 = .ok (id, c1) → parseCameraLine l2 = .ok (id, c2) →
      ∃ m, read_cameras_text [l1, l2] = .ok m ∧ m id = some c2) ∧
    (∀ (a1 a2 b1 b2 : String) (id : Int) (i1 i2 : Image DecFloat),
      startsHash a1 = false → startsHash b1 = false →
      parseImageTokens (splitWS a1) (splitWS a2) = .ok (id, i1) →
      parseImageTokens (splitWS b1) (splitWS b2) = .ok (id, i2) →
      ∃ m, read_images_text [a1, a2, b1, b2] = .ok m ∧ m id = some i2) ∧
    (∀ (l1 l2 : String) (id : Int) (p1 p2 : Point3D DecFloat DecFloat),
      startsHash l1 = false → startsHash l2 = false →
      parsePointLine l1 = .ok (id, p1) → parsePointLine l2 = .ok (id, p2) →
      ∃ m, read_points3d_text [l1, l2] = .ok m ∧ m id = some p2) ∧
    (∀ (s1 s2 : Bytes) (id : Int) (c1 c2 : Camera Nat),
      (∀ t, readCameraRecB (s1 ++ t) = .ok ((id, c1), t)) →
      (∀ t, readCameraRecB (s2 ++ t) = .ok ((id, c2), t)) →
      ∃ m, read_cameras_binary ([2,0,0,0,0,0,0,0] ++ (s1 ++ s2)) = .ok m ∧
        m id = some c2) ∧
    (∀ (s1 s2 : Bytes) (id : Int) (i1 i2 : Image Nat),
      (∀ t, readImageRecB (s1 ++ t) = .ok ((id, i1), t)) →
      (∀ t, readImageRecB (s2 ++ t) = .ok ((id, i2), t)) →
      ∃ m, read_images_binary ([2,0,0,0,0,0,0,0] ++ (s1 ++ s2)) = .ok m ∧
        m id = some i2) ∧
    (∀ (s1 s2 : Bytes) (id : Int) (p1 p2 : Point3D Nat Nat),
      (∀ t, readPointRecB (s1 ++ t) = .ok ((id, p1), t)) →
      (∀ t, readPointRecB (s2 ++ t) = .ok ((id, p2), t)) →
      ∃ m, read_points3d_binary ([2,0,0,0,0,0,0,0] ++ (s1 ++ s2)) = .ok m ∧
        m id = some p2) := by
  refine ⟨?_, ?_, ?_, ?_, ?_, ?_⟩
  · intro l1 l2 id c1 c2 hh1 hh2 h1 h2
    refine ⟨(HMap.empty.insert id c1).insert id c2, ?_, by simp [HMap.insert]⟩
    unfold read_cameras_text read_cameras_text_loop
    rw [if_neg (by simp [hh1]), h1]
    show read_cameras_text_loop [l2] (HMap.empty.insert id c1) = _
    unfold read_cameras_text_loop
    rw [if_neg (by simp [hh2]), h2]
    rfl
  · intro a1 a2 b1 b2 id i1 i2 hh1 hh2 h1 h2
    refine ⟨(HMap.empty.insert id i1).insert id i2, ?_, by simp [HMap.insert]⟩
    unfold read_images_text
    rw [read_images_text_loop, if_neg (by simp [hh1]), h1]
    show read_images_text_loop [b1, b2] (HMap.empty.insert id i1) = _
    rw [read_images_text_loop, if_neg (by simp [hh2]), h2]
    rfl
  · intro l1 l2 id p1 p2 hh1 hh2 h1 h2
    refine ⟨(HMap.empty.insert id p1).insert id p2, ?_, by simp [HMap.insert]⟩
    unfold read_points3d_text read_points3d_text_loop
    rw [if_neg (by simp [hh1]), h1]
    show read_points3d_text_loop [l2] (HMap.empty.insert id p1) = _
    unfold read_points3d_text_loop
    rw [if_neg (by simp [hh2]), h2]
    rfl
  · intro s1 s2 id c1 c2 h1 h2
    refine ⟨(HMap.empty.insert id c1).insert id c2, ?_, by simp [HMap.insert]⟩
    unfold read_cameras_binary
    rw [RM.bind_eval]
    have h8 : read_u64_le ([2,0,0,0,0,0,0,0] ++ (s1 ++ s2)) =
        .ok (2, s1 ++ s2) := rfl
    rw [h8]
    dsimp only
    rw [camerasBinLoop2 h1 h2]
  · intro s1 s2 id i1 i2 h1 h2
    refine ⟨(HMap.empty.insert id i1).insert id i2, ?_, by simp [HMap.insert]⟩
    unfold read_images_binary
    rw [RM.bind_eval]
    have h8 : read_u64_le ([2,0,0,0,0,0,0,0] ++ (s1 ++ s2)) =
        .ok (2, s1 ++ s2) := rfl
    rw [h8]
    dsimp only
    rw [imagesBinLoop2 h1 h2]
  · intro s1 s2 id p1 p2 h1 h2
    refine ⟨(HMap.empty.insert id p1).insert id p2, ?_, by simp [HMap.insert]⟩
    unfold read_points3d_binary
    rw [RM.bind_eval]
    have h8 : read_u64_le ([2,0,0,0,0,0,0,0] ++ (s1 ++ s2)) =
        .ok (2, s1 ++ s2) := rfl
    rw [h8]
    dsimp only
    rw [pointsBinLoop2 h1 h2]

end Brush

namespace Brush

set_option maxHeartbeats 2000000 in
/-- C10 witness: for each of the six decoders, a concrete pair of valid
records sharing an id decodes without error with the later record's
data at that id. -/
theorem c10_duplicate_ids_last_wins_witness :
    (∃ m, read_cameras_text
        ["0 SIMPLE_PINHOLE 100 100 50 50 50", "0 PINHOLE 2 2 1 1 1 1"] =
        .ok m ∧ m 0 = some ⟨0, .Pinhole, 2, 2, [⟨1,0⟩,⟨1,0⟩,⟨1,0⟩,⟨1,0⟩]⟩) ∧
    (∃ m, read_images_text
        ["1 1 0 0 0 0 0 0 1 a", "", "1 1 0 0 0 0 0 0 2 b", "5 6 -1"] =
        .ok m ∧ m 1 = some ⟨⟨⟨0,0⟩,⟨0,0⟩,⟨0,0⟩⟩, ⟨⟨0,0⟩,⟨0,0⟩,⟨0,0⟩,⟨1,0⟩⟩,
          2, "b", [⟨⟨5,0⟩,⟨6,0⟩⟩], [-1]⟩) ∧
    (∃ m, read_points3d_text
        ["1 0 0 0 10 20 30 0.5", "1 0 0 0 1 2 3 0.5 7 0"] =
        .ok m ∧ m 1 = some ⟨⟨⟨0,0⟩,⟨0,0⟩,⟨0,0⟩⟩, (1,2,3), ⟨5,-1⟩, [7], [0]⟩) ∧
    (∃ m, read_cameras_binary ([2,0,0,0,0,0,0,0] ++
        (([1,0,0,0, 0,0,0,0, 1,0,0,0,0,0,0,0, 1,0,0,0,0,0,0,0] ++
            List.replicate 24 0) ++
         ([1,0,0,0, 1,0,0,0, 2,0,0,0,0,0,0,0, 2,0,0,0,0,0,0,0] ++
            List.replicate 32 0))) =
        .ok m ∧ m 1 = some ⟨1, .Pinhole, 2, 2, [0,0,0,0]⟩) ∧
    (∃ m, read_images_binary ([2,0,0,0,0,0,0,0] ++
        (([5,0,0,0] ++ List.replicate 56 0 ++ [1,0,0,0] ++ [97,0] ++
            [0,0,0,0,0,0,0,0]) ++
         ([5,0,0,0] ++ List.replicate 56 0 ++ [2,0,0,0] ++ [98,0] ++
            [1,0,0,0,0,0,0,0] ++ List.replicate 16 0 ++ [0,0,0,0,0,0,0,9]))) =
        .ok m ∧ m 5 = some ⟨⟨0,0,0⟩, ⟨0,0,0,0⟩, 2, "b", [⟨0,0⟩], [9]⟩) ∧
    (∃ m, read_points3d_binary ([2,0,0,0,0,0,0,0] ++
        (([0,0,0,0,0,0,0,1] ++ List.replicate 24 0 ++ [1,2,3] ++
            List.replicate 8 0 ++ List.replicate 8 0) ++
         ([0,0,0,0,0,0,0,1] ++ List.replicate 24 0 ++ [4,5,6] ++
            List.replicate 8 0 ++ [1,0,0,0,0,0,0,0] ++ [7,0,0,0] ++
            [8,0,0,0]))) =
        .ok m ∧ m 1 = some ⟨⟨0,0,0⟩, (4,5,6), 0, [7], [8]⟩) :=
  ⟨c10_duplicate_ids_last_wins.1 _ _ 0 _ _ rfl rfl rfl rfl,
   c10_duplicate_ids_last_wins.2.1 _ _ _ _ 1 _ _ rfl rfl rfl rfl,
   c10_duplicate_ids_last_wins.2.2.1 _ _ 1 _ _ rfl rfl rfl rfl,
   c10_duplicate_ids_last_wins.2.2.2.1 _ _ 1
     ⟨1, .SimplePinhole, 1, 1, [0,0,0]⟩ ⟨1, .Pinhole, 2, 2, [0,0,0,0]⟩
     (fun _ => rfl) (fun _ => rfl),
   c10_duplicate_ids_last_wins.2.2.2.2.1 _ _ 5
     ⟨⟨0,0,0⟩, ⟨0,0,0,0⟩, 1, "a", [], []⟩
     ⟨⟨0,0,0⟩, ⟨0,0,0,0⟩, 2, "b", [⟨0,0⟩], [9]⟩
     (fun _ => rfl) (fun _ => rfl),
   c10_duplicate_ids_last_wins.2.2.2.2.2 _ _ 1
     ⟨⟨0,0,0⟩, (1,2,3), 0, [], []⟩ ⟨⟨0,0,0⟩, (4,5,6), 0, [7], [8]⟩
     (fun _ => rfl) (fun _ => rfl)⟩

end Brush

namespace Brush

/-! ## Quaternion scalar-first decoding (C7) -/

theorem rdBytes_prefix : ∀ (q r : Bytes), rdBytes q.length (q ++ r) = .ok (q, r) := by
  intro q r
  induction q with
  | nil => rfl
  | cons b q ih => simp [rdBytes, ih]

theorem read_i32_le_prefix (q r : Bytes) (h : q.length = 4) :
    read_i32_le (q ++ r) = .ok (toSigned 32 (leNat q), r) := by
  show (rdBytes 4 >>= fun bs => pure (toSigned 32 (leNat bs))) (q ++ r) = _
  rw [RM.bind_eval, ← h, rdBytes_prefix]
  rfl

theorem read_u64_le_prefix (q r : Bytes) (h : q.length = 8) :
    read_u64_le (q ++ r) = .ok (leNat q, r) := by
  show (rdBytes 8 >>= fun bs => pure (leNat bs)) (q ++ r) = _
  rw [RM.bind_eval, ← h, rdBytes_prefix]
  rfl

theorem read_f32_trunc_prefix (q r : Bytes) (h : q.length = 8) :
    read_f32_trunc (q ++ r) = .ok (f64BitsToF32Bits (leNat q), r) := by
  show (read_f64_le_bits >>= fun b => pure (f64BitsToF32Bits b)) (q ++ r) = _
  rw [RM.bind_eval]
  have hb : read_f64_le_bits (q ++ r) = .ok (leNat q, r) := by
    show (rdBytes 8 >>= fun bs => pure (leNat bs)) (q ++ r) = _
    rw [RM.bind_eval, ← h, rdBytes_prefix]
    rfl
  rw [hb]
  rfl

theorem read_until0_found :
    ∀ (nm rest : Bytes), (∀ b ∈ nm, b ≠ 0) →
      read_until0 (nm ++ 0 :: rest) = .ok (nm ++ [0], rest) := by
  intro nm rest h0
  induction nm with
  | nil => rfl
  | cons b bs ih =>
    have hb : b ≠ 0 := h0 b (List.mem_cons_self b bs)
    have ih' := ih (fun x hx => h0 x (List.mem_cons_of_mem b hx))
    simp [read_until0, hb, ih']

/-- C7: both image decoders read the on-disk quaternion scalar-first
(`qw, qx, qy, qz`) and store it through `glam::quat(x, y, z, w)`, so
the decoded quaternion's `(x, y, z, w)` components equal the record's
`(qx, qy, qz, qw)` values — for the binary decoder after the `as f32`
truncation of each little-endian `f64`.  The text conjunct speaks about
the tokens at positions 1–4 of the record's first line; the binary
conjunct decodes one full image record laid out from its field byte
groups (with an empty observation list). -/
theorem c7_quaternion_scalar_first :
    (∀ (es obs : List String) (id : Int) (img : Image DecFloat)
        (s1 s2 s3 s4 : String) (qw qx qy qz : DecFloat),
      parseImageTokens es obs = .ok (id, img) →
      es.get? 1 = some s1 → es.get? 2 = some s2 →
      es.get? 3 = some s3 → es.get? 4 = some s4 →
      parseFloatR s1 = .ok qw → parseFloatR s2 = .ok qx →
      parseFloatR s3 = .ok qy → parseFloatR s4 = .ok qz →
      img.quat = ⟨qx, qy, qz, qw⟩) ∧
    (∀ (idb q1 q2 q3 q4 t1 t2 t3 cb nm : Bytes) (name : String),
      idb.length = 4 → q1.length = 8 → q2.length = 8 → q3.length = 8 →
      q4.length = 8 → t1.length = 8 → t2.length = 8 → t3.length = 8 →
      cb.length = 4 → (∀ b ∈ nm, b ≠ 0) → utf8Decode? nm = some name →
      readImageRecB (idb ++ (q1 ++ (q2 ++ (q3 ++ (q4 ++ (t1 ++ (t2 ++
          (t3 ++ (cb ++ (nm ++ (0 :: [0,0,0,0,0,0,0,0]))))))))))) =
        .ok ((toSigned 32 (leNat idb),
          ⟨⟨f64BitsToF32Bits (leNat t1), f64BitsToF32Bits (leNat t2),
            f64BitsToF32Bits (leNat t3)⟩,
           ⟨f64BitsToF32Bits (leNat q2), f64BitsToF32Bits (leNat q3),
            f64BitsToF32Bits (leNat q4), f64BitsToF32Bits (leNat q1)⟩,
           toSigned 32 (leNat cb), name, [], []⟩), [])) := by
  constructor
  · intro es obs id img s1 s2 s3 s4 qw qx qy qz h hg1 hg2 hg3 hg4 hp1 hp2 hp3 hp4
    unfold parseImageTokens at h
    simp only [bind_eq_res_bind] at h
    obtain ⟨t0, -, h⟩ := Res.bind_ok h
    obtain ⟨idv, -, h⟩ := Res.bind_ok h
    obtain ⟨u1, hu1, h⟩ := Res.bind_ok h
    obtain ⟨w, hw, h⟩ := Res.bind_ok h
    obtain ⟨u2, hu2, h⟩ := Res.bind_ok h
    obtain ⟨x, hx, h⟩ := Res.bind_ok h
    obtain ⟨u3, hu3, h⟩ := Res.bind_ok h
    obtain ⟨y, hy, h⟩ := Res.bind_ok h
    obtain ⟨u4, hu4, h⟩ := Res.bind_ok h
    obtain ⟨z, hz, h⟩ := Res.bind_ok h
    obtain ⟨u5, -, h⟩ := Res.bind_ok h
    obtain ⟨v1, -, h⟩ := Res.bind_ok h
    obtain ⟨u6, -, h⟩ := Res.bind_ok h
    obtain ⟨v2, -, h⟩ := Res.bind_ok h
    obtain ⟨u7, -, h⟩ := Res.bind_ok h
    obtain ⟨v3, -, h⟩ := Res.bind_ok h
    obtain ⟨u8, -, h⟩ := Res.bind_ok h
    obtain ⟨cid, -, h⟩ := Res.bind_ok h
    obtain ⟨nm, -, h⟩ := Res.bind_ok h
    obtain ⟨p, -, h⟩ := Res.bind_ok h
    rcases p with ⟨xys, pids⟩
    cases h
    unfold tokGet at hu1 hu2 hu3 hu4
    rw [hg1] at hu1
    rw [hg2] at hu2
    rw [hg3] at hu3
    rw [hg4] at hu4
    cases hu1
    cases hu2
    cases hu3
    cases hu4
    rw [hp1] at hw
    rw [hp2] at hx
    rw [hp3] at hy
    rw [hp4] at hz
    cases hw
    cases hx
    cases hy
    cases hz
    rfl
  · intro idb q1 q2 q3 q4 t1 t2 t3 cb nm name hidb hq1 hq2 hq3 hq4 ht1 ht2 ht3
      hcb hnm0 hutf8
    unfold readImageRecB
    rw [RM.bind_eval, read_i32_le_prefix idb _ hidb]
    dsimp only
    rw [RM.bind_eval, read_f32_trunc_prefix q1 _ hq1]
    dsimp only
    rw [RM.bind_eval, read_f32_trunc_prefix q2 _ hq2]
    dsimp only
    rw [RM.bind_eval, read_f32_trunc_prefix q3 _ hq3]
    dsimp only
    rw [RM.bind_eval, read_f32_trunc_prefix q4 _ hq4]
    dsimp only
    rw [RM.bind_eval, read_f32_trunc_prefix t1 _ ht1]
    dsimp only
    rw [RM.bind_eval, read_f32_trunc_prefix t2 _ ht2]
    dsimp only
    rw [RM.bind_eval, read_f32_trunc_prefix t3 _ ht3]
    dsimp only
    rw [RM.bind_eval, read_i32_le_prefix cb _ hcb]
    dsimp only
    rw [RM.bind_eval, read_until0_found nm _ hnm0]
    cases nm with
    | nil =>
      cases hutf8
      rfl
    | cons b bs =>
      dsimp only [List.cons_append]
      rw [← List.cons_append, List.dropLast_concat, hutf8]
      rfl

end Brush

namespace Brush

set_option maxHeartbeats 1000000 in
/-- C7 witness: a concrete text record (`qw qx qy qz` = `1 2 3 4`) and
a concrete binary record (`qw` = 1.0, `qx` = 2.0, `qy` = 0.5,
`qz` = 0.0, name `"hi"`). -/
theorem c7_quaternion_scalar_first_witness :
    ((⟨⟨⟨0,0⟩,⟨0,0⟩,⟨0,0⟩⟩, ⟨⟨2,0⟩,⟨3,0⟩,⟨4,0⟩,⟨1,0⟩⟩, 1, "img", [],
        []⟩ : Image DecFloat).quat = ⟨⟨2,0⟩,⟨3,0⟩,⟨4,0⟩,⟨1,0⟩⟩) ∧
    (readImageRecB ([7,0,0,0] ++ ([0,0,0,0,0,0,240,63] ++
        ([0,0,0,0,0,0,0,64] ++ ([0,0,0,0,0,0,224,63] ++
        ([0,0,0,0,0,0,0,0] ++ ([0,0,0,0,0,0,0,0] ++ ([0,0,0,0,0,0,0,0] ++
        ([0,0,0,0,0,0,0,0] ++ ([9,0,0,0] ++ ([104,105] ++
        (0 :: [0,0,0,0,0,0,0,0]))))))))))) =
      .ok ((toSigned 32 (leNat [7,0,0,0]),
        ⟨⟨f64BitsToF32Bits (leNat [0,0,0,0,0,0,0,0]),
          f64BitsToF32Bits (leNat [0,0,0,0,0,0,0,0]),
          f64BitsToF32Bits (leNat [0,0,0,0,0,0,0,0])⟩,
         ⟨f64BitsToF32Bits (leNat [0,0,0,0,0,0,0,64]),
          f64BitsToF32Bits (leNat [0,0,0,0,0,0,224,63]),
          f64BitsToF32Bits (leNat [0,0,0,0,0,0,0,0]),
          f64BitsToF32Bits (leNat [0,0,0,0,0,0,240,63])⟩,
         toSigned 32 (leNat [9,0,0,0]), "hi", [], []⟩), [])) :=
  ⟨c7_quaternion_scalar_first.1 (splitWS "7 1 2 3 4 0 0 0 1 img") (splitWS "")
      7 ⟨⟨⟨0,0⟩,⟨0,0⟩,⟨0,0⟩⟩, ⟨⟨2,0⟩,⟨3,0⟩,⟨4,0⟩,⟨1,0⟩⟩, 1, "img", [], []⟩
      "1" "2" "3" "4" ⟨1,0⟩ ⟨2,0⟩ ⟨3,0⟩ ⟨4,0⟩
      rfl rfl rfl rfl rfl rfl rfl rfl rfl,
   c7_quaternion_scalar_first.2 [7,0,0,0] [0,0,0,0,0,0,240,63]
      [0,0,0,0,0,0,0,64] [0,0,0,0,0,0,224,63] [0,0,0,0,0,0,0,0]
      [0,0,0,0,0,0,0,0] [0,0,0,0,0,0,0,0] [0,0,0,0,0,0,0,0] [9,0,0,0]
      [104,105] "hi" rfl rfl rfl rfl rfl rfl rfl rfl rfl (by decide) rfl⟩

end Brush

namespace Brush

/-! ## Scene extent (C8) -/

theorem foldl_add_eq :
    ∀ (l : List (V3 ℝ)) (init : V3 ℝ),
      l.foldl V3.add init =
        ⟨init.x + (l.map V3.x).sum, init.y + (l.map V3.y).sum,
         init.z + (l.map V3.z).sum⟩ := by
  intro l
  induction l with
  | nil => intro init; simp
  | cons v l ih =>
    intro init
    rw [List.foldl_cons, ih]
    simp [V3.add]
    refine ⟨by ring, by ring, by ring⟩

theorem foldl_max_le :
    ∀ (ds : List ℝ) (d x : ℝ), x = d ∨ x ∈ ds → x ≤ ds.foldl max d := by
  intro ds
  induction ds with
  | nil =>
    rintro d x (rfl | hx)
    · exact le_refl x
    · cases hx
  | cons a ds ih =>
    rintro d x (rfl | hx)
    · exact le_trans (le_max_left x a) (ih (max x a) (max x a) (Or.inl rfl))
    · rcases List.mem_cons.mp hx with rfl | hx
      · exact le_trans (le_max_right d x) (ih (max d x) (max d x) (Or.inl rfl))
      · exact ih (max d a) x (Or.inr hx)

theorem foldl_max_mem :
    ∀ (ds : List ℝ) (d : ℝ), ds.foldl max d = d ∨ ds.foldl max d ∈ ds := by
  intro ds
  induction ds with
  | nil => intro d; exact Or.inl rfl
  | cons a ds ih =>
    intro d
    rcases ih (max d a) with h | h
    · rcases le_total d a with hda | had
      · right
        rw [List.foldl_cons, h, max_eq_right hda]
        exact List.mem_cons_self a ds
      · left
        rw [List.foldl_cons, h, max_eq_left had]
    · right
      exact List.mem_cons_of_mem a h

end Brush

namespace Brush

/-- Evaluation of `cameras_extent` on a non-empty view list: the fold
of the distance list with `max`, times `1.1`. -/
theorem cameras_extent_cons (v0 : SceneView) (vs : List SceneView) (bg : V3 ℝ) :
    Scene.cameras_extent ⟨v0 :: vs, bg⟩ =
      .ok (((vs.map (fun x => x.camera.position)).map (fun x =>
          (V3.sub ((((v0 :: vs).map (fun y => y.camera.position)).foldl V3.add
              V3.zero).divs ((((v0 :: vs).map (fun y => y.camera.position)).length : Nat) : ℝ))
            x).length)).foldl max
          ((V3.sub ((((v0 :: vs).map (fun y => y.camera.position)).foldl V3.add
              V3.zero).divs ((((v0 :: vs).map (fun y => y.camera.position)).length : Nat) : ℝ))
            v0.camera.position).length) * 1.1) := rfl

/-- C8: for a non-empty view list `cameras_extent` succeeds and returns
`1.1 ×` the maximum Euclidean distance from a view's camera position to
the centroid (the arithmetic, component-wise mean) of all view camera
positions; and for the three positions `(0,0,0), (2,0,0), (1,0,0)` it
returns `1.1`. -/
theorem c8_cameras_extent :
    (∀ s : Scene, s.views ≠ [] →
      ∃ (c : V3 ℝ) (r : ℝ), s.cameras_extent = .ok r ∧
        c.x = (s.views.map (fun v => v.camera.position.x)).sum /
          (s.views.length : ℝ) ∧
        c.y = (s.views.map (fun v => v.camera.position.y)).sum /
          (s.views.length : ℝ) ∧
        c.z = (s.views.map (fun v => v.camera.position.z)).sum /
          (s.views.length : ℝ) ∧
        (∀ v ∈ s.views, (c.sub v.camera.position).length * 1.1 ≤ r) ∧
        (∃ v ∈ s.views, r = (c.sub v.camera.position).length * 1.1)) ∧
    Scene.cameras_extent
      ⟨[⟨⟨⟨0,0,0⟩⟩⟩, ⟨⟨⟨2,0,0⟩⟩⟩, ⟨⟨⟨1,0,0⟩⟩⟩], ⟨0,0,0⟩⟩ = .ok 1.1 := by
  constructor
  · rintro ⟨views, bg⟩ hne
    cases views with
    | nil => exact absurd rfl hne
    | cons v0 vs =>
      refine ⟨(((v0 :: vs).map (fun y => y.camera.position)).foldl V3.add
            V3.zero).divs
          ((((v0 :: vs).map (fun y => y.camera.position)).length : Nat) : ℝ),
        ((vs.map (fun x => x.camera.position)).map (fun x =>
            (V3.sub ((((v0 :: vs).map (fun y => y.camera.position)).foldl V3.add
                V3.zero).divs ((((v0 :: vs).map
                  (fun y => y.camera.position)).length : Nat) : ℝ)) x).length)).foldl
          max
          ((V3.sub ((((v0 :: vs).map (fun y => y.camera.position)).foldl V3.add
              V3.zero).divs ((((v0 :: vs).map
                (fun y => y.camera.position)).length : Nat) : ℝ))
            v0.camera.position).length) * 1.1,
        cameras_extent_cons v0 vs bg, ?_, ?_, ?_, ?_, ?_⟩
      · simp [foldl_add_eq, V3.divs, V3.zero, V3.add, List.map_map, Function.comp_def]
      · simp [foldl_add_eq, V3.divs, V3.zero, V3.add, List.map_map, Function.comp_def]
      · simp [foldl_add_eq, V3.divs, V3.zero, V3.add, List.map_map, Function.comp_def]
      · intro v hv
        refine mul_le_mul_of_nonneg_right ?_ (by norm_num)
        apply foldl_max_le
        rcases List.mem_cons.mp hv with rfl | hv'
        · exact Or.inl rfl
        · exact Or.inr (List.mem_map.mpr
            ⟨v.camera.position, List.mem_map_of_mem _ hv', rfl⟩)
      · rcases foldl_max_mem ((vs.map (fun x => x.camera.position)).map
            (fun x => (V3.sub ((((v0 :: vs).map
                (fun y => y.camera.position)).foldl V3.add V3.zero).divs
              ((((v0 :: vs).map (fun y => y.camera.position)).length : Nat) : ℝ))
              x).length))
            ((V3.sub ((((v0 :: vs).map (fun y => y.camera.position)).foldl V3.add
                V3.zero).divs ((((v0 :: vs).map
                  (fun y => y.camera.position)).length : Nat) : ℝ))
              v0.camera.position).length) with h | h
        · exact ⟨v0, List.mem_cons_self v0 vs, by rw [h]⟩
        · obtain ⟨p, hp, hpd⟩ := List.mem_map.mp h
          obtain ⟨v, hv, rfl⟩ := List.mem_map.mp hp
          exact ⟨v, List.mem_cons_of_mem v0 hv, by rw [← hpd]⟩
  · rw [cameras_extent_cons]
    norm_num [V3.add, V3.sub, V3.zero, V3.divs, V3.length,
      Real.sqrt_one, Real.sqrt_zero]

/-- C8 witness: the general statement applied to the three-view scene
of the claim. -/
theorem c8_cameras_extent_witness :
    ∃ (c : V3 ℝ) (r : ℝ),
      Scene.cameras_extent
          ⟨[⟨⟨⟨0,0,0⟩⟩⟩, ⟨⟨⟨2,0,0⟩⟩⟩, ⟨⟨⟨1,0,0⟩⟩⟩], ⟨0,0,0⟩⟩ = .ok r ∧
      c.x = (([⟨⟨⟨0,0,0⟩⟩⟩, ⟨⟨⟨2,0,0⟩⟩⟩, ⟨⟨⟨1,0,0⟩⟩⟩] : List SceneView).map
          (fun v => v.camera.position.x)).sum /
        ((([⟨⟨⟨0,0,0⟩⟩⟩, ⟨⟨⟨2,0,0⟩⟩⟩, ⟨⟨⟨1,0,0⟩⟩⟩] : List SceneView).length) : ℝ) ∧
      c.y = (([⟨⟨⟨0,0,0⟩⟩⟩, ⟨⟨⟨2,0,0⟩⟩⟩, ⟨⟨⟨1,0,0⟩⟩⟩] : List SceneView).map
          (fun v => v.camera.position.y)).sum /
        ((([⟨⟨⟨0,0,0⟩⟩⟩, ⟨⟨⟨2,0,0⟩⟩⟩, ⟨⟨⟨1,0,0⟩⟩⟩] : List SceneView).length) : ℝ) ∧
      c.z = (([⟨⟨⟨0,0,0⟩⟩⟩, ⟨⟨⟨2,0,0⟩⟩⟩, ⟨⟨⟨1,0,0⟩⟩⟩] : List SceneView).map
          (fun v => v.camera.position.z)).sum /
        ((([⟨⟨⟨0,0,0⟩⟩⟩, ⟨⟨⟨2,0,0⟩⟩⟩, ⟨⟨⟨1,0,0⟩⟩⟩] : List SceneView).length) : ℝ) ∧
      (∀ v ∈ ([⟨⟨⟨0,0,0⟩⟩⟩, ⟨⟨⟨2,0,0⟩⟩⟩, ⟨⟨⟨1,0,0⟩⟩⟩] : List SceneView),
        (c.sub v.camera.position).length * 1.1 ≤ r) ∧
      (∃ v ∈ ([⟨⟨⟨0,0,0⟩⟩⟩, ⟨⟨⟨2,0,0⟩⟩⟩, ⟨⟨⟨1,0,0⟩⟩⟩] : List SceneView),
        r = (c.sub v.camera.position).length * 1.1) :=
  c8_cameras_extent.1 ⟨[⟨⟨⟨0,0,0⟩⟩⟩, ⟨⟨⟨2,0,0⟩⟩⟩, ⟨⟨⟨1,0,0⟩⟩⟩], ⟨0,0,0⟩⟩
    (by simp)

end Brush
